import Mathlib

/-!
Verification of the `authentication` service (Rust, axum + sea-orm) against its
natural-language specification.  The Rust source is shallowly embedded: pure
functions become Lean functions, database tables become lists of rows, stateful
handlers become explicit state-passing functions returning an outcome together
with the updated state.  Machine integers are `Nat` / `Int` with explicit
`% 2^32` where the source relies on 32-bit wraparound (the SHA-256 core).
Randomness (token generation, salts) and clock reads are passed in as explicit
arguments.
-/

namespace AuthSpec

/-- Application-level error type, mirroring `AppError` in `src/error.rs`
(variants that carry framework payloads such as `Database`, `Jwt`,
`HttpClient` are omitted: they only wrap external failures). -/
inductive AppError where
  | InvalidCredentials
  | UserNotFound
  | UserAlreadyExists
  | ApplicationNotFound
  | ApplicationNotActive
  | ProviderNotSupported (p : String)
  | ProviderNotConfigured
  | InvalidAuthorizationCode
  | AuthorizationCodeExpired
  | InvalidRedirectUri
  | InvalidCodeVerifier
  | InvalidToken
  | TokenRevoked
  | RefreshTokenExpired
  | InvalidScope
  | MissingClientId
  | Unauthorized
  | Forbidden
  | UserDisabled
  | AccountAlreadyLinked
  | CannotUnlinkLastAccount
  | BadRequest (msg : String)
  | Internal (msg : String)
deriving DecidableEq, Repr

/-! ## Byte-level primitives

UTF-8 encoding of a string, mirroring Rust `str::as_bytes` (Rust strings are
UTF-8 by construction). -/

/-- UTF-8 encoding of a single scalar value. -/
def utf8Bytes (c : Char) : List Nat :=
  let n := c.toNat
  if n < 0x80 then [n]
  else if n < 0x800 then
    [0xC0 ||| (n >>> 6), 0x80 ||| (n &&& 0x3F)]
  else if n < 0x10000 then
    [0xE0 ||| (n >>> 12), 0x80 ||| ((n >>> 6) &&& 0x3F), 0x80 ||| (n &&& 0x3F)]
  else
    [0xF0 ||| (n >>> 18), 0x80 ||| ((n >>> 12) &&& 0x3F),
     0x80 ||| ((n >>> 6) &&& 0x3F), 0x80 ||| (n &&& 0x3F)]

/-- Byte view of a string, as in Rust `s.as_bytes()`. -/
def strBytes (s : String) : List Nat :=
  (s.data.map utf8Bytes).flatten

/-! ## SHA-256 (FIPS 180-4), as computed by the `sha2` crate

All word arithmetic is on `Nat` reduced `% 2^32`. -/

/-- Right rotation of a 32-bit word. -/
def rotr (n x : Nat) : Nat :=
  ((x >>> n) ||| (x <<< (32 - n))) % 4294967296

def bigSigma0 (x : Nat) : Nat := rotr 2 x ^^^ rotr 13 x ^^^ rotr 22 x

def bigSigma1 (x : Nat) : Nat := rotr 6 x ^^^ rotr 11 x ^^^ rotr 25 x

def smallSigma0 (x : Nat) : Nat := rotr 7 x ^^^ rotr 18 x ^^^ (x >>> 3)

def smallSigma1 (x : Nat) : Nat := rotr 17 x ^^^ rotr 19 x ^^^ (x >>> 10)

def chFn (x y z : Nat) : Nat := (x &&& y) ^^^ ((x ^^^ 0xFFFFFFFF) &&& z)

def majFn (x y z : Nat) : Nat := (x &&& y) ^^^ (x &&& z) ^^^ (y &&& z)

/-- The 64 SHA-256 round constants. -/
def sha256K : List Nat :=
  [1116352408, 1899447441, 3049323471, 3921009573, 961987163, 1508970993,
   2453635748, 2870763221, 3624381080, 310598401, 607225278, 1426881987,
   1925078388, 2162078206, 2614888103, 3248222580, 3835390401, 4022224774,
   264347078, 604807628, 770255983, 1249150122, 1555081692, 1996064986,
   2554220882, 2821834349, 2952996808, 3210313671, 3336571891, 3584528711,
   113926993, 338241895, 666307205, 773529912, 1294757372, 1396182291,
   1695183700, 1986661051, 2177026350, 2456956037, 2730485921, 2820302411,
   3259730800, 3345764771, 3516065817, 3600352804, 4094571909, 275423344,
   430227734, 506948616, 659060556, 883997877, 958139571, 1322822218,
   1537002063, 1747873779, 1955562222, 2024104815, 2227730452, 2361852424,
   2428436474, 2756734187, 3204031479, 3329325298]

/-- Big-endian 8-byte encoding of a 64-bit length. -/
def beBytes8 (n : Nat) : List Nat :=
  [(n >>> 56) % 256, (n >>> 48) % 256, (n >>> 40) % 256, (n >>> 32) % 256,
   (n >>> 24) % 256, (n >>> 16) % 256, (n >>> 8) % 256, n % 256]

/-- Big-endian 4-byte encoding of a 32-bit word. -/
def be32 (n : Nat) : List Nat :=
  [(n >>> 24) % 256, (n >>> 16) % 256, (n >>> 8) % 256, n % 256]

/-- SHA-256 padding: append 0x80, zero-fill, then the 64-bit bit length. -/
def padBytes (msg : List Nat) : List Nat :=
  let L := msg.length
  let zeros := (64 - ((L + 9) % 64)) % 64
  msg ++ [0x80] ++ List.replicate zeros 0 ++ beBytes8 (8 * L)

/-- Group bytes into big-endian 32-bit words. -/
def toWords : List Nat → List Nat
  | b0 :: b1 :: b2 :: b3 :: rest =>
      ((b0 <<< 24) + (b1 <<< 16) + (b2 <<< 8) + b3) :: toWords rest
  | _ => []

/-- Split a word list into 16-word blocks (structural recursion so the kernel
can evaluate it; SHA-256 padding always yields a multiple of 16 words). -/
def chunk16 : List Nat → List (List Nat)
  | w0 :: w1 :: w2 :: w3 :: w4 :: w5 :: w6 :: w7 ::
    w8 :: w9 :: w10 :: w11 :: w12 :: w13 :: w14 :: w15 :: rest =>
      [w0, w1, w2, w3, w4, w5, w6, w7,
       w8, w9, w10, w11, w12, w13, w14, w15] :: chunk16 rest
  | _ => []

/-- One step of the message-schedule recurrence; `rws` holds the schedule so
far, most recent word first. -/
def schedStep (rws : List Nat) : Nat :=
  (smallSigma1 (rws.getD 1 0) + rws.getD 6 0 + smallSigma0 (rws.getD 14 0)
    + rws.getD 15 0) % 4294967296

/-- The 64-entry message schedule of one block. -/
def schedule (block : List Nat) : List Nat :=
  ((List.range 48).foldl (fun acc _ => schedStep acc :: acc)
    (block.take 16).reverse).reverse

/-- Working state of the compression function. -/
structure Hash8 where
  a : Nat
  b : Nat
  c : Nat
  d : Nat
  e : Nat
  f : Nat
  g : Nat
  h : Nat
deriving DecidableEq, Repr

/-- One SHA-256 round. -/
def sha256Round (st : Hash8) (k w : Nat) : Hash8 :=
  let t1 := (st.h + bigSigma1 st.e + chFn st.e st.f st.g + k + w) % 4294967296
  let t2 := (bigSigma0 st.a + majFn st.a st.b st.c) % 4294967296
  { a := (t1 + t2) % 4294967296, b := st.a, c := st.b, d := st.c,
    e := (st.d + t1) % 4294967296, f := st.e, g := st.f, h := st.g }

/-- Compression of one 16-word block into the chaining state. -/
def sha256Compress (st : Hash8) (block : List Nat) : Hash8 :=
  let ws := schedule block
  let t := (sha256K.zip ws).foldl (fun s kw => sha256Round s kw.1 kw.2) st
  { a := (st.a + t.a) % 4294967296, b := (st.b + t.b) % 4294967296,
    c := (st.c + t.c) % 4294967296, d := (st.d + t.d) % 4294967296,
    e := (st.e + t.e) % 4294967296, f := (st.f + t.f) % 4294967296,
    g := (st.g + t.g) % 4294967296, h := (st.h + t.h) % 4294967296 }

/-- Initial SHA-256 chaining value. -/
def sha256Init : Hash8 :=
  { a := 1779033703, b := 3144134277, c := 1013904242, d := 2773480762,
    e := 1359893119, f := 2600822924, g := 528734635, h := 1541459225 }

/-- SHA-256 digest (32 bytes) of a byte string. -/
def sha256Bytes (msg : List Nat) : List Nat :=
  let final := (chunk16 (toWords (padBytes msg))).foldl sha256Compress sha256Init
  be32 final.a ++ be32 final.b ++ be32 final.c ++ be32 final.d ++
  be32 final.e ++ be32 final.f ++ be32 final.g ++ be32 final.h

/-! ## Hex and base64url encodings -/

/-- Lowercase hex digit. -/
def hexDigitChar (n : Nat) : Char :=
  if n < 10 then (['0', '1', '2', '3', '4', '5', '6', '7', '8', '9']).getD n '0'
  else (['a', 'b', 'c', 'd', 'e', 'f']).getD (n - 10) '0'

/-- Lowercase hex encoding of a byte string, as `hex::encode`. -/
def hexEncode (bytes : List Nat) : String :=
  String.mk ((bytes.map
    (fun b => [hexDigitChar ((b >>> 4) % 16), hexDigitChar (b % 16)])).flatten)

/-- The base64url alphabet (RFC 4648 §5). -/
def b64Char (n : Nat) : Char :=
  (['A', 'B', 'C', 'D', 'E', 'F', 'G', 'H', 'I', 'J', 'K', 'L', 'M',
    'N', 'O', 'P', 'Q', 'R', 'S', 'T', 'U', 'V', 'W', 'X', 'Y', 'Z',
    'a', 'b', 'c', 'd', 'e', 'f', 'g', 'h', 'i', 'j', 'k', 'l', 'm',
    'n', 'o', 'p', 'q', 'r', 's', 't', 'u', 'v', 'w', 'x', 'y', 'z',
    '0', '1', '2', '3', '4', '5', '6', '7', '8', '9', '-', '_']).getD n 'A'

/-- Base64url encoding without padding, character list form. -/
def base64urlChars : List Nat → List Char
  | b1 :: b2 :: b3 :: rest =>
      b64Char (b1 >>> 2) :: b64Char (((b1 &&& 3) <<< 4) ||| (b2 >>> 4)) ::
      b64Char (((b2 &&& 15) <<< 2) ||| (b3 >>> 6)) :: b64Char (b3 &&& 63) ::
      base64urlChars rest
  | [b1, b2] =>
      [b64Char (b1 >>> 2), b64Char (((b1 &&& 3) <<< 4) ||| (b2 >>> 4)),
       b64Char ((b2 &&& 15) <<< 2)]
  | [b1] => [b64Char (b1 >>> 2), b64Char ((b1 &&& 3) <<< 4)]
  | [] => []

/-- Base64url no-padding encoding, as `base64::engine::general_purpose::URL_SAFE_NO_PAD`. -/
def base64url (bytes : List Nat) : String :=
  String.mk (base64urlChars bytes)

/-! ## Credential primitives (`src/auth/password.rs`, `src/auth/oauth2.rs`) -/

/-- Embeds `verify_pkce` from `src/auth/oauth2.rs`. -/
def verify_pkce (code_verifier code_challenge code_challenge_method : String) :
    Bool :=
  match code_challenge_method with
  | "S256" => base64url (sha256Bytes (strBytes code_verifier)) == code_challenge
  | "plain" => code_verifier == code_challenge
  | _ => false

/-- Embeds `hash_token` from `src/auth/oauth2.rs`: SHA-256 of the raw token,
hex-encoded. -/
def hash_token (token : String) : String :=
  hexEncode (sha256Bytes (strBytes token))

/-- Embeds `hash_client_secret` from `src/auth/password.rs`. -/
def hash_client_secret (secret : String) : String :=
  "sha256:" ++ hexEncode (sha256Bytes (strBytes secret))

/-- The tag of the modelled Argon2 PHC string, `"$argon2id$"` as characters. -/
def argon2Tag : List Char :=
  ['$', 'a', 'r', 'g', 'o', 'n', '2', 'i', 'd', '$']

/-- Modelled from the spec: the Argon2id password hash of the external `argon2`
crate, used by `hash_password` in `src/auth/password.rs`.  The spec describes
the stored value as "a self-describing string containing algorithm,
parameters, salt, and digest"; the model keeps the algorithm tag, the salt and
a digest that determines the password (an idealised collision-free digest).
The random salt drawn from `OsRng` is passed in explicitly. -/
def argon2Encode (salt pwd : List Char) : List Char :=
  argon2Tag ++ salt ++ '$' :: pwd

/-- Modelled from the spec: Argon2 verification of the external `argon2` crate
("Verification parses the stored string and runs the same algorithm; result is
boolean success").  Returns `none` when the stored string does not parse as an
Argon2 PHC string. -/
def argon2Check (pwd stored : List Char) : Option Bool :=
  if stored.take 10 = argon2Tag then
    let rest := stored.drop 10
    let salt := rest.takeWhile (fun c => c ≠ '$')
    some (decide (rest.drop (salt.length + 1) = pwd))
  else none

/-- Embeds `hash_password` from `src/auth/password.rs`, over the modelled
Argon2 primitive; the `OsRng` salt is an explicit argument. -/
def hash_password (salt password : String) : String :=
  String.mk (argon2Encode salt.data password.data)

/-- Embeds `verify_password` from `src/auth/password.rs`, over the modelled
Argon2 primitive: a hash that fails to parse is an `Internal` error. -/
def verify_password (password hash : String) : Except AppError Bool :=
  match argon2Check password.data hash.data with
  | none => .error (.Internal ("Invalid password hash"))
  | some b => .ok b

/-- Constant-time comparison accumulator from `verify_client_secret`:
fold of `acc | (a ^ b)` over the zipped byte strings. -/
def ctFold (xs ys : List Nat) : Nat :=
  (xs.zip ys).foldl (fun acc p => acc ||| (p.1 ^^^ p.2)) 0

/-- Embeds `verify_client_secret` from `src/auth/password.rs`: a hash with the
`"sha256:"` tag is compared digest-to-digest in constant time over equal-length
byte strings; any other hash takes the legacy Argon2 path.  Rust `str::len`
is the UTF-8 byte length, embedded via `strBytes`. -/
def verify_client_secret (secret hash : String) : Except AppError Bool :=
  if (("sha256:").data).isPrefixOf hash.data then
    let hex_hash := String.mk (hash.data.drop 7)
    let computed := hexEncode (sha256Bytes (strBytes secret))
    if (strBytes computed).length ≠ (strBytes hex_hash).length then .ok false
    else .ok (ctFold (strBytes computed) (strBytes hex_hash) == 0)
  else
    verify_password secret hash

/-- Embeds `validate_password` from `src/auth/password.rs`.  Rust
`password.len()` is the UTF-8 byte length; the Unicode character classes
`char::is_uppercase`, `char::is_lowercase` and `char::is_alphanumeric` are
embedded by Lean's `Char.isUpper` / `Char.isLower` / `Char.isAlphanum`
(they agree on ASCII, which is all the claims exercise). -/
def validate_password (password : String) : Except AppError Unit :=
  if (strBytes password).length < 8 then
    .error (.BadRequest ("Password must be at least 8 characters"))
  else if (strBytes password).length > 128 then
    .error (.BadRequest ("Password must not exceed 128 characters"))
  else if ¬ password.data.any (fun c => c.isUpper) then
    .error (.BadRequest ("Password must contain at least one uppercase letter"))
  else if ¬ password.data.any (fun c => c.isLower) then
    .error (.BadRequest ("Password must contain at least one lowercase letter"))
  else if ¬ password.data.any (fun c => c.isDigit) then
    .error (.BadRequest ("Password must contain at least one digit"))
  else if ¬ password.data.any (fun c => ¬ c.isAlphanum) then
    .error (.BadRequest ("Password must contain at least one special character"))
  else .ok ()

/-! ## Data model (`entity/src/*.rs`)

Tables are lists of rows; SeaORM primary-key and filtered `one()` lookups are
`List.find?` (keys are unique in the store, so first match is the match).
Timestamps are `Int` seconds; `chrono` day arithmetic is `86400 *` days.
List-valued columns that the source stores as JSON text (`scopes`,
`allowed_scopes`, `redirect_uris`) are kept as `List String`: every row the
source writes serialises a list, and `serde_json` round-trips it. -/

/-- Row of `users`, from `entity/src/user.rs`. -/
structure User where
  id : String
  email : Option String
  name : Option String
  avatar_url : Option String
  email_verified : Bool
  role : String
  is_active : Bool
  created_at : Int
  updated_at : Int
deriving DecidableEq, Repr

/-- Row of `accounts`, from `entity/src/account.rs`. -/
structure Account where
  id : String
  user_id : String
  provider_id : String
  provider_account_id : Option String
  credential : Option String
  provider_metadata : String
  created_at : Int
  updated_at : Int
deriving DecidableEq, Repr

/-- Row of `applications`, from `entity/src/application.rs`. -/
structure Application where
  id : String
  name : String
  client_id : String
  client_secret_hash : String
  redirect_uris : List String
  allowed_scopes : List String
  is_active : Bool
  created_at : Int
  updated_at : Int
deriving DecidableEq, Repr

/-- Row of `authorization_codes`, from `entity/src/authorization_code.rs`. -/
structure AuthorizationCode where
  code : String
  app_id : String
  user_id : String
  redirect_uri : String
  scopes : List String
  code_challenge : Option String
  code_challenge_method : Option String
  expires_at : Int
  used : Bool
  created_at : Int
deriving DecidableEq, Repr

/-- Row of `refresh_tokens`, from `entity/src/refresh_token.rs`. -/
structure RefreshToken where
  id : String
  user_id : String
  app_id : String
  token_hash : String
  scopes : List String
  device_id : Option String
  expires_at : Int
  revoked : Bool
  created_at : Int
deriving DecidableEq, Repr

/-! ## OAuth2 core operations (`src/auth/oauth2.rs`)

Each database-touching operation takes the table it reads, plus explicit
arguments for the clock and for generated randomness, and returns its outcome
together with the table after the call (unchanged on every error path). -/

/-- Embeds `store_auth_code`: inserts a fresh unused code row expiring in 10
minutes. -/
def store_auth_code (db : List AuthorizationCode)
    (code app_id user_id redirect_uri : String) (scopes : List String)
    (code_challenge code_challenge_method : Option String) (now : Int) :
    List AuthorizationCode :=
  db ++ [{ code := code, app_id := app_id, user_id := user_id,
           redirect_uri := redirect_uri, scopes := scopes,
           code_challenge := code_challenge,
           code_challenge_method := code_challenge_method,
           expires_at := now + 10 * 60, used := false, created_at := now }]

/-- Embeds `exchange_auth_code`: validates the code in source order, marks it
used, and returns `(user_id, scopes)`.  The returned table equals the input
table on every error path (the source returns `Err` before any update). -/
def exchange_auth_code (db : List AuthorizationCode)
    (code app_id redirect_uri : String) (code_verifier : Option String)
    (now : Int) :
    Except AppError (String × List String) × List AuthorizationCode :=
  match db.find? (fun r => r.code == code) with
  | none => (.error .InvalidAuthorizationCode, db)
  | some auth_code =>
    if auth_code.used then (.error .InvalidAuthorizationCode, db)
    else if auth_code.app_id ≠ app_id then
      (.error .InvalidAuthorizationCode, db)
    else if auth_code.redirect_uri ≠ redirect_uri then
      (.error .InvalidRedirectUri, db)
    else if auth_code.expires_at < now then
      (.error .AuthorizationCodeExpired, db)
    else
      let proceed :=
        (Except.ok (auth_code.user_id, auth_code.scopes),
         db.map (fun r => if r.code == code then { r with used := true } else r))
      match auth_code.code_challenge with
      | some challenge =>
        let method := auth_code.code_challenge_method.getD ("plain")
        match code_verifier with
        | none => (.error .InvalidCodeVerifier, db)
        | some verifier =>
          if ¬ verify_pkce verifier challenge method then
            (.error .InvalidCodeVerifier, db)
          else proceed
      | none => proceed

/-- Embeds `store_refresh_token`: inserts a row whose `token_hash` is the
SHA-256 hex of the raw token and whose expiry is `expiry_days` days out.  The
fresh UUID row id is the explicit argument `new_id`. -/
def store_refresh_token (db : List RefreshToken)
    (user_id app_id token : String) (scopes : List String)
    (device_id : Option String) (expiry_days : Int) (now : Int)
    (new_id : String) : List RefreshToken :=
  db ++ [{ id := new_id, user_id := user_id, app_id := app_id,
           token_hash := hash_token token, scopes := scopes,
           device_id := device_id, expires_at := now + expiry_days * 86400,
           revoked := false, created_at := now }]

/-- Embeds `rotate_refresh_token`: validates the presented raw token in source
order, revokes the stored row, and inserts a fresh row for the newly generated
raw token `new_token` (the source's `generate_refresh_token()` output, passed
in explicitly, as is the fresh row id). -/
def rotate_refresh_token (db : List RefreshToken)
    (token app_id : String) (expiry_days : Int) (now : Int)
    (new_token new_id : String) :
    Except AppError (String × String × List String) × List RefreshToken :=
  let token_hash := hash_token token
  match db.find? (fun r => r.token_hash == token_hash) with
  | none => (.error .InvalidToken, db)
  | some stored =>
    if stored.revoked then (.error .TokenRevoked, db)
    else if stored.app_id ≠ app_id then (.error .InvalidToken, db)
    else if stored.expires_at < now then (.error .RefreshTokenExpired, db)
    else
      let db1 := db.map
        (fun r => if r.id == stored.id then { r with revoked := true } else r)
      (.ok (stored.user_id, new_token, stored.scopes),
       store_refresh_token db1 stored.user_id app_id new_token stored.scopes
         stored.device_id expiry_days now new_id)

/-- Embeds `revoke_refresh_token`: marks the row holding the token hash
revoked; unknown tokens are `InvalidToken` with the table unchanged. -/
def revoke_refresh_token (db : List RefreshToken) (token : String) :
    Except AppError Unit × List RefreshToken :=
  let token_hash := hash_token token
  match db.find? (fun r => r.token_hash == token_hash) with
  | none => (.error .InvalidToken, db)
  | some stored =>
    (.ok (),
     db.map (fun r => if r.id == stored.id then { r with revoked := true } else r))

/-! ## Helper lemmas on table lookups -/

/-- A `find?` over a mapped table, when the map does not change the predicate,
is the mapped `find?`. -/
theorem find?_map_of_pred {α : Type} (l : List α) (f : α → α) (p : α → Bool)
    (hp : ∀ a, p (f a) = p a) :
    (l.map f).find? p = (l.find? p).map f := by
  induction l with
  | nil => rfl
  | cons a t ih =>
    by_cases hpa : p a = true
    · simp [List.find?, hp a, hpa]
    · have hpa' : p a = false := by revert hpa; cases p a <;> simp
      simp [List.find?, hp a, hpa', ih]

/-- A successful `find?` on the left part survives an append. -/
theorem find?_append_some {α : Type} {l₁ : List α} (l₂ : List α)
    {p : α → Bool} {a : α} (h : l₁.find? p = some a) :
    (l₁ ++ l₂).find? p = some a := by
  induction l₁ with
  | nil => simp [List.find?] at h
  | cons b t ih =>
    rw [List.cons_append]
    by_cases hpb : p b = true
    · rw [List.find?_cons_of_pos _ hpb] at h ⊢; exact h
    · rw [List.find?_cons_of_neg _ hpb] at h ⊢; exact ih h

/-- A `find?` that misses the left part of an append searches the right part. -/
theorem find?_append_left_none {α : Type} {l₁ : List α} (l₂ : List α)
    {p : α → Bool} (h : l₁.find? p = none) :
    (l₁ ++ l₂).find? p = l₂.find? p := by
  induction l₁ with
  | nil => rfl
  | cons b t ih =>
    rw [List.find?_eq_none] at h
    have hpb : ¬ p b = true := h b (by simp)
    rw [List.cons_append, List.find?_cons_of_neg _ hpb]
    exact ih (List.find?_eq_none.mpr (fun a ha => h a (by simp [ha])))

/-- Marking an authorization code used does not change the `code` column, so
the lookup predicate is unaffected. -/
theorem find?_mark_used (db : List AuthorizationCode) (code : String) :
    (db.map (fun r => if r.code == code then { r with used := true } else r)).find?
        (fun r => r.code == code)
      = (db.find? (fun r => r.code == code)).map
        (fun r => if r.code == code then { r with used := true } else r) := by
  refine find?_map_of_pred db _ _ (fun a => ?_)
  by_cases h : a.code == code <;> simp [h]

/-- Revoking a refresh token row does not change the `token_hash` column, so
the hash lookup predicate is unaffected. -/
theorem find?_mark_revoked (db : List RefreshToken) (i h : String) :
    (db.map (fun r => if r.id == i then { r with revoked := true } else r)).find?
        (fun r => r.token_hash == h)
      = (db.find? (fun r => r.token_hash == h)).map
        (fun r => if r.id == i then { r with revoked := true } else r) := by
  refine find?_map_of_pred db _ _ (fun a => ?_)
  by_cases hh : a.id == i <;> simp [hh]

/-- Inversion of a successful `exchange_auth_code` call: the row was present,
unused, matching, unexpired, PKCE-satisfied, and the returned table is the
input table with that row marked used. -/
theorem exchange_auth_code_ok_inv {db : List AuthorizationCode}
    {code app_id redirect_uri : String} {cv : Option String} {now : Int}
    {res : String × List String} {db' : List AuthorizationCode}
    (h : exchange_auth_code db code app_id redirect_uri cv now = (.ok res, db')) :
    ∃ ac, db.find? (fun r => r.code == code) = some ac ∧ ac.used = false ∧
      db' = db.map (fun r => if r.code == code then { r with used := true } else r) ∧
      res = (ac.user_id, ac.scopes) := by
  unfold exchange_auth_code at h
  cases hf : db.find? (fun r => r.code == code) with
  | none => rw [hf] at h; simp at h
  | some ac =>
    rw [hf] at h
    dsimp only at h
    refine ⟨ac, rfl, ?_⟩
    by_cases hu : ac.used = true
    · rw [if_pos hu] at h; simp at h
    · rw [if_neg hu] at h
      have hu' : ac.used = false := by revert hu; cases ac.used <;> simp
      refine ⟨hu', ?_⟩
      split at h
      · simp at h
      · split at h
        · simp at h
        · split at h
          · simp at h
          · split at h
            · split at h
              · simp at h
              · split at h
                · simp at h
                · rw [Prod.mk.injEq] at h
                  obtain ⟨hok, hdb⟩ := h
                  injection hok with hres
                  exact ⟨hdb.symm, hres.symm⟩
            · rw [Prod.mk.injEq] at h
              obtain ⟨hok, hdb⟩ := h
              injection hok with hres
              exact ⟨hdb.symm, hres.symm⟩

/-- Inversion of a failing `exchange_auth_code` call: the table is returned
unchanged. -/
theorem exchange_auth_code_error_inv {db : List AuthorizationCode}
    {code app_id redirect_uri : String} {cv : Option String} {now : Int}
    {e : AppError} {db2 : List AuthorizationCode}
    (h : exchange_auth_code db code app_id redirect_uri cv now = (.error e, db2)) :
    db2 = db := by
  unfold exchange_auth_code at h
  cases hf : db.find? (fun r => r.code == code) with
  | none =>
    rw [hf] at h; dsimp only at h
    rw [Prod.mk.injEq] at h; exact h.2.symm
  | some ac =>
    rw [hf] at h; dsimp only at h
    split at h
    · rw [Prod.mk.injEq] at h; exact h.2.symm
    · split at h
      · rw [Prod.mk.injEq] at h; exact h.2.symm
      · split at h
        · rw [Prod.mk.injEq] at h; exact h.2.symm
        · split at h
          · rw [Prod.mk.injEq] at h; exact h.2.symm
          · split at h
            · split at h
              · rw [Prod.mk.injEq] at h; exact h.2.symm
              · split at h
                · rw [Prod.mk.injEq] at h; exact h.2.symm
                · rw [Prod.mk.injEq] at h; exact absurd h.1 (by simp)
            · rw [Prod.mk.injEq] at h; exact absurd h.1 (by simp)

/-- C1: `exchange_auth_code` settles its checks in source order and returns
the first failing one (`InvalidAuthorizationCode` for unknown, replayed or
cross-client codes, then `InvalidRedirectUri`, then
`AuthorizationCodeExpired`, then `InvalidCodeVerifier`, where a stored
challenge makes a verifier mandatory and the stored method defaults to
`"plain"`); only when all checks pass does it persist `used = true` in the
returned table together with the token data; and a second exchange of the
same code after a successful one fails with `InvalidAuthorizationCode`
whatever the other arguments, so a code is exchanged at most once. -/
theorem exchange_auth_code_check_order_and_single_use
    (db : List AuthorizationCode) (code app_id redirect_uri : String)
    (cv : Option String) (now : Int) :
    (db.find? (fun r => r.code == code) = none →
      exchange_auth_code db code app_id redirect_uri cv now
        = (.error .InvalidAuthorizationCode, db)) ∧
    (∀ ac, db.find? (fun r => r.code == code) = some ac →
      (ac.used = true →
        exchange_auth_code db code app_id redirect_uri cv now
          = (.error .InvalidAuthorizationCode, db)) ∧
      (ac.used = false → ac.app_id ≠ app_id →
        exchange_auth_code db code app_id redirect_uri cv now
          = (.error .InvalidAuthorizationCode, db)) ∧
      (ac.used = false → ac.app_id = app_id → ac.redirect_uri ≠ redirect_uri →
        exchange_auth_code db code app_id redirect_uri cv now
          = (.error .InvalidRedirectUri, db)) ∧
      (ac.used = false → ac.app_id = app_id → ac.redirect_uri = redirect_uri →
        ac.expires_at < now →
        exchange_auth_code db code app_id redirect_uri cv now
          = (.error .AuthorizationCodeExpired, db)) ∧
      (∀ ch, ac.used = false → ac.app_id = app_id →
        ac.redirect_uri = redirect_uri → ¬ ac.expires_at < now →
        ac.code_challenge = some ch → cv = none →
        exchange_auth_code db code app_id redirect_uri cv now
          = (.error .InvalidCodeVerifier, db)) ∧
      (∀ ch v, ac.used = false → ac.app_id = app_id →
        ac.redirect_uri = redirect_uri → ¬ ac.expires_at < now →
        ac.code_challenge = some ch → cv = some v →
        verify_pkce v ch (ac.code_challenge_method.getD ("plain")) = false →
        exchange_auth_code db code app_id redirect_uri cv now
          = (.error .InvalidCodeVerifier, db)) ∧
      (ac.used = false → ac.app_id = app_id → ac.redirect_uri = redirect_uri →
        ¬ ac.expires_at < now →
        (match ac.code_challenge with
         | none => True
         | some ch => ∃ v, cv = some v ∧
             verify_pkce v ch (ac.code_challenge_method.getD ("plain")) = true) →
        exchange_auth_code db code app_id redirect_uri cv now
          = (.ok (ac.user_id, ac.scopes),
             db.map (fun r => if r.code == code then { r with used := true } else r))
        ∧ (db.map (fun r => if r.code == code then { r with used := true } else r)).find?
            (fun r => r.code == code) = some { ac with used := true })) ∧
    (∀ res db',
      exchange_auth_code db code app_id redirect_uri cv now = (.ok res, db') →
      ∀ app_id' redirect_uri' cv' (now' : Int),
        exchange_auth_code db' code app_id' redirect_uri' cv' now'
          = (.error .InvalidAuthorizationCode, db')) := by
  refine ⟨?_, ?_, ?_⟩
  · intro hf
    simp [exchange_auth_code, hf]
  · intro ac hf
    refine ⟨?_, ?_, ?_, ?_, ?_, ?_, ?_⟩
    · intro hu
      simp [exchange_auth_code, hf, hu]
    · intro hu hne
      simp [exchange_auth_code, hf, hu, hne]
    · intro hu happ hne
      simp [exchange_auth_code, hf, hu, happ, hne]
    · intro hu happ huri hexp
      simp [exchange_auth_code, hf, hu, happ, huri, hexp]
    · intro ch hu happ huri hexp hch hcv
      simp [exchange_auth_code, hf, hu, happ, huri, hexp, hch, hcv]
    · intro ch v hu happ huri hexp hch hcv hvf
      simp [exchange_auth_code, hf, hu, happ, huri, hexp, hch, hcv, hvf]
    · intro hu happ huri hexp hpk
      have hacc0 := List.find?_some hf
      have hacc : (ac.code == code) = true := hacc0
      constructor
      · cases hcc : ac.code_challenge with
        | none =>
          simp [exchange_auth_code, hf, hu, happ, huri, hexp, hcc]
        | some ch =>
          rw [hcc] at hpk
          obtain ⟨v, hv, hvf⟩ := hpk
          simp [exchange_auth_code, hf, hu, happ, huri, hexp, hcc, hv, hvf]
      · rw [find?_mark_used, hf, Option.map_some']
        rw [if_pos hacc]
  · intro res db' h app_id' redirect_uri' cv' now'
    obtain ⟨ac, hf, hu, hdb', _⟩ := exchange_auth_code_ok_inv h
    have hacc0 := List.find?_some hf
    have hacc : (ac.code == code) = true := hacc0
    have hfind' : db'.find? (fun r => r.code == code)
        = some { ac with used := true } := by
      rw [hdb', find?_mark_used, hf, Option.map_some', if_pos hacc]
    simp [exchange_auth_code, hfind']

/-- C5: every failing outcome of `exchange_auth_code` returns the
authorization-code table exactly as it was; in particular a code whose
`expires_at` is in the past (after the used / app / redirect checks pass)
yields `AuthorizationCodeExpired` with no mutation, so `used` stays `false`. -/
theorem exchange_auth_code_failure_leaves_table_unchanged
    (db : List AuthorizationCode) (code app_id redirect_uri : String)
    (cv : Option String) (now : Int) :
    (∀ e, (exchange_auth_code db code app_id redirect_uri cv now).1 = .error e →
      (exchange_auth_code db code app_id redirect_uri cv now).2 = db) ∧
    (∀ ac, db.find? (fun r => r.code == code) = some ac →
      ac.used = false → ac.app_id = app_id → ac.redirect_uri = redirect_uri →
      ac.expires_at < now →
      exchange_auth_code db code app_id redirect_uri cv now
        = (.error .AuthorizationCodeExpired, db)) := by
  constructor
  · intro e h
    rcases hx : exchange_auth_code db code app_id redirect_uri cv now with ⟨r, db2⟩
    rw [hx] at h
    dsimp only at h
    subst h
    exact exchange_auth_code_error_inv hx
  · intro ac hf hu happ huri hexp
    simp [exchange_auth_code, hf, hu, happ, huri, hexp]

/-- Inversion of a successful `rotate_refresh_token` call. -/
theorem rotate_refresh_token_ok_inv {db : List RefreshToken}
    {token app_id : String} {expiry_days now : Int} {new_token new_id : String}
    {out : String × String × List String} {db' : List RefreshToken}
    (h : rotate_refresh_token db token app_id expiry_days now new_token new_id
          = (.ok out, db')) :
    ∃ st, db.find? (fun r => r.token_hash == hash_token token) = some st ∧
      st.revoked = false ∧ st.app_id = app_id ∧ ¬ st.expires_at < now ∧
      out = (st.user_id, new_token, st.scopes) ∧
      db' = (db.map
          (fun r => if r.id == st.id then { r with revoked := true } else r))
        ++ [{ id := new_id, user_id := st.user_id, app_id := app_id,
              token_hash := hash_token new_token, scopes := st.scopes,
              device_id := st.device_id,
              expires_at := now + expiry_days * 86400,
              revoked := false, created_at := now }] := by
  unfold rotate_refresh_token store_refresh_token at h
  dsimp only at h
  cases hf : db.find? (fun r => r.token_hash == hash_token token) with
  | none => rw [hf] at h; simp at h
  | some st =>
    rw [hf] at h
    dsimp only at h
    refine ⟨st, rfl, ?_⟩
    by_cases hr : st.revoked = true
    · rw [if_pos hr] at h; simp at h
    · rw [if_neg hr] at h
      have hr' : st.revoked = false := by revert hr; cases st.revoked <;> simp
      refine ⟨hr', ?_⟩
      split at h
      · simp at h
      · split at h
        · simp at h
        · rw [Prod.mk.injEq] at h
          obtain ⟨hok, hdb⟩ := h
          injection hok with hout
          rename_i happ hexp
          refine ⟨not_not.mp happ, hexp, hout.symm, hdb.symm⟩

/-- C2: `rotate_refresh_token` settles its checks in source order (unknown
hash, then `revoked`, then cross-app, then expiry); on success it revokes the
old row and appends a new row with the same `user_id`, `app_id`, `scopes` and
`device_id`, expiry `now + expiry_days` days, and `token_hash` the SHA-256
hex of the fresh raw token; and presenting the previous raw token after a
successful rotation yields `TokenRevoked`. -/
theorem rotate_refresh_token_rotation_and_replay
    (db : List RefreshToken) (token app_id : String)
    (expiry_days now : Int) (new_token new_id : String) :
    (db.find? (fun r => r.token_hash == hash_token token) = none →
      rotate_refresh_token db token app_id expiry_days now new_token new_id
        = (.error .InvalidToken, db)) ∧
    (∀ st, db.find? (fun r => r.token_hash == hash_token token) = some st →
      (st.revoked = true →
        rotate_refresh_token db token app_id expiry_days now new_token new_id
          = (.error .TokenRevoked, db)) ∧
      (st.revoked = false → st.app_id ≠ app_id →
        rotate_refresh_token db token app_id expiry_days now new_token new_id
          = (.error .InvalidToken, db)) ∧
      (st.revoked = false → st.app_id = app_id → st.expires_at < now →
        rotate_refresh_token db token app_id expiry_days now new_token new_id
          = (.error .RefreshTokenExpired, db)) ∧
      (st.revoked = false → st.app_id = app_id → ¬ st.expires_at < now →
        rotate_refresh_token db token app_id expiry_days now new_token new_id
          = (.ok (st.user_id, new_token, st.scopes),
             (db.map (fun r =>
                if r.id == st.id then { r with revoked := true } else r))
               ++ [{ id := new_id, user_id := st.user_id, app_id := app_id,
                     token_hash := hash_token new_token, scopes := st.scopes,
                     device_id := st.device_id,
                     expires_at := now + expiry_days * 86400,
                     revoked := false, created_at := now }]))) ∧
    (∀ out db',
      rotate_refresh_token db token app_id expiry_days now new_token new_id
        = (.ok out, db') →
      ∀ app_id' (expiry_days' now' : Int) new_token' new_id',
        rotate_refresh_token db' token app_id' expiry_days' now' new_token' new_id'
          = (.error .TokenRevoked, db')) := by
  refine ⟨?_, ?_, ?_⟩
  · intro hf
    simp [rotate_refresh_token, hf]
  · intro st hf
    refine ⟨?_, ?_, ?_, ?_⟩
    · intro hr
      simp [rotate_refresh_token, hf, hr]
    · intro hr hne
      simp [rotate_refresh_token, hf, hr, hne]
    · intro hr happ hexp
      simp [rotate_refresh_token, hf, hr, happ, hexp]
    · intro hr happ hexp
      simp [rotate_refresh_token, store_refresh_token, hf, hr, happ, hexp]
  · intro out db' h app_id' expiry_days' now' new_token' new_id'
    obtain ⟨st, hf, hr, _, _, _, hdb'⟩ := rotate_refresh_token_ok_inv h
    have hid : (st.id == st.id) = true := beq_self_eq_true st.id
    have hfind' : db'.find? (fun r => r.token_hash == hash_token token)
        = some { st with revoked := true } := by
      rw [hdb']
      refine find?_append_some _ ?_
      rw [find?_mark_revoked, hf, Option.map_some', if_pos hid]
    simp [rotate_refresh_token, hfind']

/-! ## Handler layer (`src/handlers/oauth2.rs`, `src/handlers/auth.rs`)

`AppState` becomes a `World` of tables plus a `Config`; the JWT signer and
the random generators become explicit inputs. -/

/-- Row of `app_providers`, from `entity/src/app_provider.rs`. -/
structure AppProvider where
  id : String
  app_id : String
  provider_id : String
  config : String
  is_active : Bool
  created_at : Int
deriving DecidableEq, Repr

/-- The persistent store: one list per table. -/
structure World where
  users : List User
  accounts : List Account
  applications : List Application
  app_providers : List AppProvider
  auth_codes : List AuthorizationCode
  refresh_tokens : List RefreshToken
deriving DecidableEq, Repr

/-- The configuration values the handlers read (`src/config.rs`). -/
structure Config where
  jwt_access_token_expiry_secs : Int
  jwt_refresh_token_expiry_days : Int
deriving DecidableEq, Repr

/-- Modelled from the spec: the claims payload of a user access token
(§4.2 "user-access" JWT shape).  RS256 signing lives in the external
`jsonwebtoken` crate; the model keeps the claims that the service sets:
`sub` (user id), `aud` (client id), scopes and role. -/
structure AccessToken where
  sub : String
  aud : String
  scopes : List String
  role : String
deriving DecidableEq, Repr

/-- Embeds `JwtService::issue_access_token` at the claims level. -/
def issue_access_token (user_id client_id : String) (scopes : List String)
    (role : String) : AccessToken :=
  { sub := user_id, aud := client_id, scopes := scopes, role := role }

/-- Embeds `JwtService::issue_app_token` at the claims level (spec §4.2
app-access shape: subject is the application, no user, no scopes). -/
def issue_app_token (app_id : String) : AccessToken :=
  { sub := app_id, aud := app_id, scopes := [], role := "app" }

/-- The `AuthenticatedApp` extractor output (`src/auth/middleware.rs`). -/
structure AuthenticatedApp where
  app_id : String
  client_id : String
deriving DecidableEq, Repr

/-- The `ClientApp` extractor output (`src/auth/middleware.rs`). -/
structure ClientApp where
  app_id : String
  client_id : String
  allowed_scopes : List String
deriving DecidableEq, Repr

/-- The token-endpoint request body (`TokenRequest` in
`src/handlers/oauth2.rs`). -/
structure TokenRequest where
  grant_type : String
  code : Option String
  redirect_uri : Option String
  code_verifier : Option String
  username : Option String
  password : Option String
  refresh_token : Option String
  scope : Option String
deriving DecidableEq, Repr

/-- The token-endpoint response (`OAuthTokenResponse`). -/
structure OAuthTokenResponse where
  access_token : AccessToken
  refresh_token : Option String
  token_type : String
  expires_in : Int
  scope : Option String
deriving DecidableEq, Repr

/-- The `/api/auth` response (`TokenResponse` in `src/handlers/auth.rs`). -/
structure TokenResponse where
  access_token : AccessToken
  refresh_token : String
  token_type : String
  expires_in : Int
deriving DecidableEq, Repr

/-- The register response (`RegisterResponse` in `src/handlers/auth.rs`). -/
structure RegisterResponse where
  user_id : String
  access_token : AccessToken
  refresh_token : String
  token_type : String
  expires_in : Int
deriving DecidableEq, Repr

/-- Request bodies of `src/handlers/auth.rs`. -/
structure RegisterRequest where
  email : String
  password : String
  name : Option String
deriving DecidableEq, Repr

structure LoginRequest where
  email : String
  password : String
deriving DecidableEq, Repr

structure RefreshRequest where
  refresh_token : String
deriving DecidableEq, Repr

/-- Normalised provider identity (`ProviderUserInfo` in
`src/auth/providers/mod.rs`); `metadata` is kept as its JSON text. -/
structure ProviderUserInfo where
  provider_account_id : String
  email : Option String
  name : Option String
  avatar_url : Option String
  metadata : String
deriving DecidableEq, Repr

/-- Embeds `handle_authorization_code` from `src/handlers/oauth2.rs`.  The
fresh refresh token and its row id are explicit inputs. -/
def handle_authorization_code (w : World) (cfg : Config)
    (auth_app : AuthenticatedApp) (req : TokenRequest) (now : Int)
    (new_refresh_raw new_refresh_id : String) :
    Except AppError OAuthTokenResponse × World :=
  match req.code with
  | none => (.error (.BadRequest ("Missing code parameter")), w)
  | some code =>
  match req.redirect_uri with
  | none => (.error (.BadRequest ("Missing redirect_uri parameter")), w)
  | some redirect_uri =>
  match exchange_auth_code w.auth_codes code auth_app.app_id redirect_uri
      req.code_verifier now with
  | (.error e, codes') => (.error e, { w with auth_codes := codes' })
  | (.ok (user_id, scopes), codes') =>
    let w1 := { w with auth_codes := codes' }
    match w1.users.find? (fun u => u.id == user_id) with
    | none => (.error .UserNotFound, w1)
    | some user =>
      if ¬ user.is_active then (.error .Forbidden, w1)
      else
        let access_token := issue_access_token user_id auth_app.client_id
          scopes user.role
        let w2 := { w1 with refresh_tokens :=
          (store_refresh_token w1.refresh_tokens user_id auth_app.app_id
            new_refresh_raw scopes none cfg.jwt_refresh_token_expiry_days now
            new_refresh_id) }
        (.ok { access_token := access_token,
               refresh_token := some new_refresh_raw,
               token_type := "Bearer",
               expires_in := cfg.jwt_access_token_expiry_secs,
               scope := some (String.intercalate (" ") scopes) }, w2)

/-- Embeds `handle_client_credentials` from `src/handlers/oauth2.rs`. -/
def handle_client_credentials (w : World) (cfg : Config)
    (auth_app : AuthenticatedApp) : Except AppError OAuthTokenResponse × World :=
  (.ok { access_token := issue_app_token auth_app.app_id,
         refresh_token := none, token_type := "Bearer",
         expires_in := cfg.jwt_access_token_expiry_secs, scope := none }, w)

/-- Embeds `handle_refresh_token` from `src/handlers/oauth2.rs`. -/
def handle_refresh_token (w : World) (cfg : Config)
    (auth_app : AuthenticatedApp) (req : TokenRequest) (now : Int)
    (new_refresh_raw new_refresh_id : String) :
    Except AppError OAuthTokenResponse × World :=
  match req.refresh_token with
  | none => (.error (.BadRequest ("Missing refresh_token parameter")), w)
  | some refresh_token_str =>
  match rotate_refresh_token w.refresh_tokens refresh_token_str
      auth_app.app_id cfg.jwt_refresh_token_expiry_days now
      new_refresh_raw new_refresh_id with
  | (.error e, rt') => (.error e, { w with refresh_tokens := rt' })
  | (.ok (user_id, new_refresh_token, scopes), rt') =>
    let w1 := { w with refresh_tokens := rt' }
    match w1.users.find? (fun u => u.id == user_id) with
    | none => (.error .UserNotFound, w1)
    | some user =>
      if ¬ user.is_active then (.error .Forbidden, w1)
      else
        (.ok { access_token := issue_access_token user_id auth_app.client_id
                 scopes user.role,
               refresh_token := some new_refresh_token,
               token_type := "Bearer",
               expires_in := cfg.jwt_access_token_expiry_secs,
               scope := some (String.intercalate (" ") scopes) }, w1)

/-- Embeds `handle_password_grant` from `src/handlers/oauth2.rs`. -/
def handle_password_grant (w : World) (cfg : Config)
    (auth_app : AuthenticatedApp) (req : TokenRequest) (now : Int)
    (new_refresh_raw new_refresh_id : String) :
    Except AppError OAuthTokenResponse × World :=
  match req.username with
  | none => (.error (.BadRequest ("Missing username parameter")), w)
  | some username =>
  match req.password with
  | none => (.error (.BadRequest ("Missing password parameter")), w)
  | some password =>
  match w.users.find? (fun u => u.email == some username) with
  | none => (.error .InvalidCredentials, w)
  | some user =>
  match w.accounts.find?
      (fun a => a.user_id == user.id && a.provider_id == "password") with
  | none => (.error .InvalidCredentials, w)
  | some account =>
  match account.credential with
  | none => (.error .InvalidCredentials, w)
  | some credential =>
  match verify_password password credential with
  | .error e => (.error e, w)
  | .ok false => (.error .InvalidCredentials, w)
  | .ok true =>
  match w.applications.find? (fun a => a.id == auth_app.app_id) with
  | none => (.error .ApplicationNotFound, w)
  | some app =>
    let allowed_scopes := app.allowed_scopes
    let scopes :=
      match req.scope with
      | some scope_str =>
          ((scope_str.splitOn (" ")).filter (fun s => allowed_scopes.contains s))
      | none => allowed_scopes
    if ¬ user.is_active then (.error .Forbidden, w)
    else
      let w2 := { w with refresh_tokens :=
        (store_refresh_token w.refresh_tokens user.id auth_app.app_id
          new_refresh_raw scopes none cfg.jwt_refresh_token_expiry_days now
          new_refresh_id) }
      (.ok { access_token := issue_access_token user.id auth_app.client_id
               scopes user.role,
             refresh_token := some new_refresh_raw,
             token_type := "Bearer",
             expires_in := cfg.jwt_access_token_expiry_secs,
             scope := some (String.intercalate (" ") scopes) }, w2)

/-- Embeds the `token` dispatcher from `src/handlers/oauth2.rs`. -/
def token (w : World) (cfg : Config) (auth_app : AuthenticatedApp)
    (req : TokenRequest) (now : Int) (new_refresh_raw new_refresh_id : String) :
    Except AppError OAuthTokenResponse × World :=
  match req.grant_type with
  | "authorization_code" =>
      handle_authorization_code w cfg auth_app req now new_refresh_raw
        new_refresh_id
  | "client_credentials" => handle_client_credentials w cfg auth_app
  | "refresh_token" =>
      handle_refresh_token w cfg auth_app req now new_refresh_raw new_refresh_id
  | "password" =>
      handle_password_grant w cfg auth_app req now new_refresh_raw new_refresh_id
  | _ => (.error (.BadRequest ("Unsupported grant_type: " ++ req.grant_type)), w)

/-- Embeds `register` from `src/handlers/auth.rs`.  Fresh ids, the Argon2
salt and the fresh refresh token are explicit inputs. -/
def register (w : World) (cfg : Config) (client_app : ClientApp)
    (req : RegisterRequest) (now : Int)
    (new_user_id new_account_id salt new_refresh_raw new_refresh_id : String) :
    Except AppError RegisterResponse × World :=
  if (w.users.find? (fun u => u.email == some req.email)).isSome then
    (.error .UserAlreadyExists, w)
  else
    let user : User :=
      { id := new_user_id, email := some req.email, name := req.name,
        avatar_url := none, email_verified := false, role := "user",
        is_active := true, created_at := now, updated_at := now }
    let password_hash := hash_password salt req.password
    let account : Account :=
      { id := new_account_id, user_id := new_user_id,
        provider_id := "password", provider_account_id := some req.email,
        credential := some password_hash, provider_metadata := "{}",
        created_at := now, updated_at := now }
    let scopes := client_app.allowed_scopes
    let w1 := { w with users := w.users ++ [user],
                       accounts := w.accounts ++ [account],
                       refresh_tokens :=
      (store_refresh_token w.refresh_tokens new_user_id client_app.app_id
        new_refresh_raw scopes none cfg.jwt_refresh_token_expiry_days now
        new_refresh_id) }
    (.ok { user_id := new_user_id,
           access_token := issue_access_token new_user_id client_app.client_id
             scopes "user",
           refresh_token := new_refresh_raw, token_type := "Bearer",
           expires_in := cfg.jwt_access_token_expiry_secs }, w1)

/-- Embeds `login` from `src/handlers/auth.rs`. -/
def login (w : World) (cfg : Config) (client_app : ClientApp)
    (req : LoginRequest) (now : Int) (new_refresh_raw new_refresh_id : String) :
    Except AppError TokenResponse × World :=
  match w.users.find? (fun u => u.email == some req.email) with
  | none => (.error .InvalidCredentials, w)
  | some user =>
    if ¬ user.is_active then (.error .UserDisabled, w)
    else
    match w.accounts.find?
        (fun a => a.user_id == user.id && a.provider_id == "password") with
    | none => (.error .InvalidCredentials, w)
    | some account =>
    match account.credential with
    | none => (.error .InvalidCredentials, w)
    | some credential =>
    match verify_password req.password credential with
    | .error e => (.error e, w)
    | .ok false => (.error .InvalidCredentials, w)
    | .ok true =>
      let scopes := client_app.allowed_scopes
      let w1 := { w with refresh_tokens :=
        (store_refresh_token w.refresh_tokens user.id client_app.app_id
          new_refresh_raw scopes none cfg.jwt_refresh_token_expiry_days now
          new_refresh_id) }
      (.ok { access_token := issue_access_token user.id client_app.client_id
               scopes user.role,
             refresh_token := new_refresh_raw, token_type := "Bearer",
             expires_in := cfg.jwt_access_token_expiry_secs }, w1)

/-- Embeds `provider_login` from `src/handlers/auth.rs`.  The outcome of the
external provider's `authenticate` call (`create_provider` + HTTP) is the
explicit input `provider_result`; fresh ids and tokens are explicit. -/
def provider_login (w : World) (cfg : Config) (client_app : ClientApp)
    (provider_id : String)
    (provider_result : Except AppError ProviderUserInfo) (now : Int)
    (new_user_id new_account_id new_refresh_raw new_refresh_id : String) :
    Except AppError TokenResponse × World :=
  match w.app_providers.find?
      (fun p => p.app_id == client_app.app_id && p.provider_id == provider_id) with
  | none => (.error .ProviderNotConfigured, w)
  | some app_provider =>
    if ¬ app_provider.is_active then (.error .ProviderNotConfigured, w)
    else
    match provider_result with
    | .error e => (.error e, w)
    | .ok provider_info =>
    match w.accounts.find? (fun a => a.provider_id == provider_id &&
        a.provider_account_id == some provider_info.provider_account_id) with
    | some account =>
      let accounts' := w.accounts.map (fun a =>
        if a.id == account.id then
          { a with provider_metadata := provider_info.metadata,
                   updated_at := now }
        else a)
      let wq := { w with accounts := accounts' }
      match wq.users.find? (fun u => u.id == account.user_id) with
      | none => (.error .UserNotFound, wq)
      | some user =>
        if ¬ user.is_active then (.error .UserDisabled, wq)
        else
          let scopes := client_app.allowed_scopes
          let w1 := { wq with refresh_tokens :=
            (store_refresh_token wq.refresh_tokens account.user_id
              client_app.app_id new_refresh_raw scopes none
              cfg.jwt_refresh_token_expiry_days now new_refresh_id) }
          (.ok { access_token := issue_access_token account.user_id
                   client_app.client_id scopes user.role,
                 refresh_token := new_refresh_raw, token_type := "Bearer",
                 expires_in := cfg.jwt_access_token_expiry_secs }, w1)
    | none =>
      let user : User :=
        { id := new_user_id, email := provider_info.email,
          name := provider_info.name, avatar_url := provider_info.avatar_url,
          email_verified := false, role := "user", is_active := true,
          created_at := now, updated_at := now }
      let account : Account :=
        { id := new_account_id, user_id := new_user_id,
          provider_id := provider_id,
          provider_account_id := some provider_info.provider_account_id,
          credential := none, provider_metadata := provider_info.metadata,
          created_at := now, updated_at := now }
      let scopes := client_app.allowed_scopes
      let w1 := { w with users := w.users ++ [user],
                         accounts := w.accounts ++ [account],
                         refresh_tokens :=
        (store_refresh_token w.refresh_tokens new_user_id client_app.app_id
          new_refresh_raw scopes none cfg.jwt_refresh_token_expiry_days now
          new_refresh_id) }
      (.ok { access_token := issue_access_token new_user_id
               client_app.client_id scopes "user",
             refresh_token := new_refresh_raw, token_type := "Bearer",
             expires_in := cfg.jwt_access_token_expiry_secs }, w1)

/-- Embeds `refresh` from `src/handlers/auth.rs` (the `/api/auth/refresh`
endpoint). -/
def refresh (w : World) (cfg : Config) (client_app : ClientApp)
    (req : RefreshRequest) (now : Int)
    (new_refresh_raw new_refresh_id : String) :
    Except AppError TokenResponse × World :=
  match rotate_refresh_token w.refresh_tokens req.refresh_token
      client_app.app_id cfg.jwt_refresh_token_expiry_days now
      new_refresh_raw new_refresh_id with
  | (.error e, rt') => (.error e, { w with refresh_tokens := rt' })
  | (.ok (user_id, new_refresh_token, scopes), rt') =>
    let w1 := { w with refresh_tokens := rt' }
    match w1.users.find? (fun u => u.id == user_id) with
    | none => (.error .UserNotFound, w1)
    | some user =>
      if ¬ user.is_active then (.error .UserDisabled, w1)
      else
        (.ok { access_token := issue_access_token user_id client_app.client_id
                 scopes user.role,
               refresh_token := new_refresh_token, token_type := "Bearer",
               expires_in := cfg.jwt_access_token_expiry_secs }, w1)

/-! ## Success inversions: a token response names an active user -/

/-- A successful `authorization_code` grant names an active user row. -/
theorem handle_authorization_code_ok_active
    {w : World} {cfg : Config} {auth_app : AuthenticatedApp}
    {req : TokenRequest} {now : Int} {nrr nri : String}
    {resp : OAuthTokenResponse} {w' : World}
    (h : handle_authorization_code w cfg auth_app req now nrr nri
          = (.ok resp, w')) :
    ∃ u, u ∈ w'.users ∧ u.id = resp.access_token.sub ∧ u.is_active = true := by
  unfold handle_authorization_code at h
  split at h
  · simp at h
  · split at h
    · simp at h
    · split at h
      · simp at h
      · rename_i uid scopes codes' heq
        dsimp only at h
        split at h
        · simp at h
        · rename_i user hfind
          split at h
          · simp at h
          · rename_i hact
            rw [Prod.mk.injEq] at h
            obtain ⟨hok, hw⟩ := h
            injection hok with hresp
            have hactive : user.is_active = true := by
              revert hact; cases user.is_active <;> simp
            subst hw
            refine ⟨user, ?_, ?_, hactive⟩
            · simpa using List.mem_of_find?_eq_some hfind
            · have hb := List.find?_some hfind
              have hb' : user.id = uid := eq_of_beq hb
              rw [← hresp, hb']
              rfl

/-- A successful `refresh_token` grant names an active user row. -/
theorem handle_refresh_token_ok_active
    {w : World} {cfg : Config} {auth_app : AuthenticatedApp}
    {req : TokenRequest} {now : Int} {nrr nri : String}
    {resp : OAuthTokenResponse} {w' : World}
    (h : handle_refresh_token w cfg auth_app req now nrr nri = (.ok resp, w')) :
    ∃ u, u ∈ w'.users ∧ u.id = resp.access_token.sub ∧ u.is_active = true := by
  unfold handle_refresh_token at h
  split at h
  · simp at h
  · split at h
    · simp at h
    · rename_i uid ntok scopes rt' heq
      dsimp only at h
      split at h
      · simp at h
      · rename_i user hfind
        split at h
        · simp at h
        · rename_i hact
          rw [Prod.mk.injEq] at h
          obtain ⟨hok, hw⟩ := h
          injection hok with hresp
          have hactive : user.is_active = true := by
            revert hact; cases user.is_active <;> simp
          subst hw
          refine ⟨user, ?_, ?_, hactive⟩
          · simpa using List.mem_of_find?_eq_some hfind
          · have hb := List.find?_some hfind
            have hb' : user.id = uid := eq_of_beq hb
            rw [← hresp, hb']
            rfl

/-- A successful `password` grant names an active user row. -/
theorem handle_password_grant_ok_active
    {w : World} {cfg : Config} {auth_app : AuthenticatedApp}
    {req : TokenRequest} {now : Int} {nrr nri : String}
    {resp : OAuthTokenResponse} {w' : World}
    (h : handle_password_grant w cfg auth_app req now nrr nri = (.ok resp, w')) :
    ∃ u, u ∈ w'.users ∧ u.id = resp.access_token.sub ∧ u.is_active = true := by
  unfold handle_password_grant at h
  split at h
  · simp at h
  · split at h
    · simp at h
    · split at h
      · simp at h
      · rename_i user hfind
        split at h
        · simp at h
        · split at h
          · simp at h
          · split at h
            · simp at h
            · simp at h
            · split at h
              · simp at h
              · dsimp only at h
                split at h
                · simp at h
                · rename_i hact
                  rw [Prod.mk.injEq] at h
                  obtain ⟨hok, hw⟩ := h
                  injection hok with hresp
                  have hactive : user.is_active = true := by
                    revert hact; cases user.is_active <;> simp
                  subst hw
                  refine ⟨user, ?_, ?_, hactive⟩
                  · simpa using List.mem_of_find?_eq_some hfind
                  · rw [← hresp]
                    rfl

/-- A successful `login` names an active user row. -/
theorem login_ok_active
    {w : World} {cfg : Config} {client_app : ClientApp} {req : LoginRequest}
    {now : Int} {nrr nri : String} {resp : TokenResponse} {w' : World}
    (h : login w cfg client_app req now nrr nri = (.ok resp, w')) :
    ∃ u, u ∈ w'.users ∧ u.id = resp.access_token.sub ∧ u.is_active = true := by
  unfold login at h
  split at h
  · simp at h
  · rename_i user hfind
    split at h
    · simp at h
    · rename_i hact
      split at h
      · simp at h
      · split at h
        · simp at h
        · split at h
          · simp at h
          · simp at h
          · dsimp only at h
            rw [Prod.mk.injEq] at h
            obtain ⟨hok, hw⟩ := h
            injection hok with hresp
            have hactive : user.is_active = true := by
              revert hact; cases user.is_active <;> simp
            subst hw
            refine ⟨user, ?_, ?_, hactive⟩
            · simpa using List.mem_of_find?_eq_some hfind
            · rw [← hresp]
              rfl

/-- A successful provider login names an active user row (either the active
existing linked user, or the freshly created user, which is active by
construction). -/
theorem provider_login_ok_active
    {w : World} {cfg : Config} {client_app : ClientApp} {provider_id : String}
    {provider_result : Except AppError ProviderUserInfo} {now : Int}
    {nuid naid nrr nri : String} {resp : TokenResponse} {w' : World}
    (h : provider_login w cfg client_app provider_id provider_result now
          nuid naid nrr nri = (.ok resp, w')) :
    ∃ u, u ∈ w'.users ∧ u.id = resp.access_token.sub ∧ u.is_active = true := by
  unfold provider_login at h
  split at h
  · simp at h
  · split at h
    · simp at h
    · split at h
      · simp at h
      · rename_i xscr info
        split at h
        · rename_i account hfinda
          dsimp only at h
          split at h
          · simp at h
          · rename_i user hfind
            split at h
            · simp at h
            · rename_i hact
              rw [Prod.mk.injEq] at h
              obtain ⟨hok, hw⟩ := h
              injection hok with hresp
              have hactive : user.is_active = true := by
                revert hact; cases user.is_active <;> simp
              subst hw
              refine ⟨user, ?_, ?_, hactive⟩
              · simpa using List.mem_of_find?_eq_some hfind
              · have hb := List.find?_some hfind
                have hb' : user.id = account.user_id := eq_of_beq hb
                rw [← hresp, hb']
                rfl
        · dsimp only at h
          rw [Prod.mk.injEq] at h
          obtain ⟨hok, hw⟩ := h
          injection hok with hresp
          subst hw
          refine ⟨{ id := nuid, email := info.email, name := info.name,
                    avatar_url := info.avatar_url, email_verified := false,
                    role := "user", is_active := true, created_at := now,
                    updated_at := now }, ?_, ?_, rfl⟩
          · simp
          · rw [← hresp]
            rfl

/-- A successful `/api/auth/refresh` names an active user row. -/
theorem refresh_ok_active
    {w : World} {cfg : Config} {client_app : ClientApp} {req : RefreshRequest}
    {now : Int} {nrr nri : String} {resp : TokenResponse} {w' : World}
    (h : refresh w cfg client_app req now nrr nri = (.ok resp, w')) :
    ∃ u, u ∈ w'.users ∧ u.id = resp.access_token.sub ∧ u.is_active = true := by
  unfold refresh at h
  split at h
  · simp at h
  · rename_i uid ntok scopes rt' heq
    dsimp only at h
    split at h
    · simp at h
    · rename_i user hfind
      split at h
      · simp at h
      · rename_i hact
        rw [Prod.mk.injEq] at h
        obtain ⟨hok, hw⟩ := h
        injection hok with hresp
        have hactive : user.is_active = true := by
          revert hact; cases user.is_active <;> simp
        subst hw
        refine ⟨user, ?_, ?_, hactive⟩
        · simpa using List.mem_of_find?_eq_some hfind
        · have hb := List.find?_some hfind
          have hb' : user.id = uid := eq_of_beq hb
          rw [← hresp, hb']
          rfl

/-- A successful token-endpoint call on any user grant (everything except
`client_credentials`) names an active user row. -/
theorem token_ok_active
    {w : World} {cfg : Config} {auth_app : AuthenticatedApp}
    {req : TokenRequest} {now : Int} {nrr nri : String}
    {resp : OAuthTokenResponse} {w' : World}
    (hgrant : req.grant_type ≠ "client_credentials")
    (h : token w cfg auth_app req now nrr nri = (.ok resp, w')) :
    ∃ u, u ∈ w'.users ∧ u.id = resp.access_token.sub ∧ u.is_active = true := by
  unfold token at h
  split at h
  · exact handle_authorization_code_ok_active h
  · rename_i hg
    exact absurd hg hgrant
  · exact handle_refresh_token_ok_active h
  · exact handle_password_grant_ok_active h
  · simp at h

/-- C3: a user with `is_active = false` obtains no access token through any
grant.  Every successful user-grant outcome (`authorization_code`,
`refresh_token`, `password` on the token endpoint; `login`; provider login;
`/api/auth/refresh`) names an active user row; and when the other checks of
an operation pass but the subject user is inactive, the token endpoint
grants return `Forbidden` while `login`, provider login and
`/api/auth/refresh` return `UserDisabled`. -/
theorem inactive_user_obtains_no_token
    (w : World) (cfg : Config) (auth_app : AuthenticatedApp)
    (client_app : ClientApp) (req : TokenRequest) (lreq : LoginRequest)
    (rreq : RefreshRequest) (provider_id : String)
    (provider_result : Except AppError ProviderUserInfo) (now : Int)
    (nrr nri nuid naid : String) :
    (∀ resp w', req.grant_type ≠ "client_credentials" →
      token w cfg auth_app req now nrr nri = (.ok resp, w') →
      ∃ u, u ∈ w'.users ∧ u.id = resp.access_token.sub ∧ u.is_active = true) ∧
    (∀ resp w', login w cfg client_app lreq now nrr nri = (.ok resp, w') →
      ∃ u, u ∈ w'.users ∧ u.id = resp.access_token.sub ∧ u.is_active = true) ∧
    (∀ resp w', provider_login w cfg client_app provider_id provider_result
        now nuid naid nrr nri = (.ok resp, w') →
      ∃ u, u ∈ w'.users ∧ u.id = resp.access_token.sub ∧ u.is_active = true) ∧
    (∀ resp w', refresh w cfg client_app rreq now nrr nri = (.ok resp, w') →
      ∃ u, u ∈ w'.users ∧ u.id = resp.access_token.sub ∧ u.is_active = true) ∧
    (∀ code redirect_uri uid scopes codes' u,
      req.grant_type = "authorization_code" → req.code = some code →
      req.redirect_uri = some redirect_uri →
      exchange_auth_code w.auth_codes code auth_app.app_id redirect_uri
        req.code_verifier now = (.ok (uid, scopes), codes') →
      w.users.find? (fun x => x.id == uid) = some u → u.is_active = false →
      (token w cfg auth_app req now nrr nri).1 = .error .Forbidden) ∧
    (∀ rt uid ntok scopes rt' u,
      req.grant_type = "refresh_token" → req.refresh_token = some rt →
      rotate_refresh_token w.refresh_tokens rt auth_app.app_id
        cfg.jwt_refresh_token_expiry_days now nrr nri = (.ok (uid, ntok, scopes), rt') →
      w.users.find? (fun x => x.id == uid) = some u → u.is_active = false →
      (token w cfg auth_app req now nrr nri).1 = .error .Forbidden) ∧
    (∀ username password u acct cred app,
      req.grant_type = "password" → req.username = some username →
      req.password = some password →
      w.users.find? (fun x => x.email == some username) = some u →
      w.accounts.find?
        (fun a => a.user_id == u.id && a.provider_id == "password") = some acct →
      acct.credential = some cred → verify_password password cred = .ok true →
      w.applications.find? (fun a => a.id == auth_app.app_id) = some app →
      u.is_active = false →
      (token w cfg auth_app req now nrr nri).1 = .error .Forbidden) ∧
    (∀ u, w.users.find? (fun x => x.email == some lreq.email) = some u →
      u.is_active = false →
      login w cfg client_app lreq now nrr nri = (.error .UserDisabled, w)) ∧
    (∀ ap info acct u,
      w.app_providers.find?
        (fun p => p.app_id == client_app.app_id && p.provider_id == provider_id)
        = some ap →
      ap.is_active = true → provider_result = .ok info →
      w.accounts.find? (fun a => a.provider_id == provider_id &&
        a.provider_account_id == some info.provider_account_id) = some acct →
      w.users.find? (fun x => x.id == acct.user_id) = some u →
      u.is_active = false →
      (provider_login w cfg client_app provider_id provider_result now
        nuid naid nrr nri).1 = .error .UserDisabled) ∧
    (∀ uid ntok scopes rt' u,
      rotate_refresh_token w.refresh_tokens rreq.refresh_token
        client_app.app_id cfg.jwt_refresh_token_expiry_days now nrr nri
        = (.ok (uid, ntok, scopes), rt') →
      w.users.find? (fun x => x.id == uid) = some u → u.is_active = false →
      (refresh w cfg client_app rreq now nrr nri).1 = .error .UserDisabled) := by
  refine ⟨?_, ?_, ?_, ?_, ?_, ?_, ?_, ?_, ?_, ?_⟩
  · intro resp w' hgrant h
    exact token_ok_active hgrant h
  · intro resp w' h
    exact login_ok_active h
  · intro resp w' h
    exact provider_login_ok_active h
  · intro resp w' h
    exact refresh_ok_active h
  · intro code redirect_uri uid scopes codes' u hg hcode huri hex hfind hia
    simp [token, hg, handle_authorization_code, hcode, huri, hex, hfind, hia]
  · intro rt uid ntok scopes rt' u hg hrt hrot hfind hia
    simp [token, hg, handle_refresh_token, hrt, hrot, hfind, hia]
  · intro username password u acct cred app hg hun hpw hfind hacct hcred hvf happ hia
    simp [token, hg, handle_password_grant, hun, hpw, hfind, hacct, hcred, hvf,
      happ, hia]
  · intro u hfind hia
    simp [login, hfind, hia]
  · intro ap info acct u hap hapact hpr hacct hfind hia
    simp [provider_login, hap, hapact, hpr, hacct, hfind, hia]
  · intro uid ntok scopes rt' u hrot hfind hia
    simp [refresh, hrot, hfind, hia]

/-! ## C4: the register handler and password complexity -/

/-- Empty store, for evaluating `register` on a concrete request. -/
def emptyWorld : World :=
  { users := [], accounts := [], applications := [], app_providers := [],
    auth_codes := [], refresh_tokens := [] }

/-- Concrete configuration for evaluation. -/
def cfg0 : Config :=
  { jwt_access_token_expiry_secs := 3600, jwt_refresh_token_expiry_days := 30 }

/-- Concrete `ClientApp` identity for evaluation. -/
def capp0 : ClientApp :=
  { app_id := "app1", client_id := "client1", allowed_scopes := ["openid"] }

/-- C4 (evaluation of the code at the failing input): the password `"weak"`
fails the §4.1 complexity rule, yet `register` — which never calls
`validate_password` — accepts it, creates the user and the account, and
returns tokens. -/
theorem register_accepts_weak_password :
    validate_password ("weak")
      = .error (.BadRequest ("Password must be at least 8 characters")) ∧
    (register emptyWorld cfg0 capp0
        { email := "a@t.com", password := "weak", name := none }
        0 "u1" "a1" "salt" "rt1" "rid1").1
      = .ok { user_id := "u1",
              access_token := { sub := "u1", aud := "client1",
                                scopes := ["openid"], role := "user" },
              refresh_token := "rt1", token_type := "Bearer",
              expires_in := 3600 } ∧
    (register emptyWorld cfg0 capp0
        { email := "a@t.com", password := "weak", name := none }
        0 "u1" "a1" "salt" "rt1" "rid1").2.users.length = 1 ∧
    (register emptyWorld cfg0 capp0
        { email := "a@t.com", password := "weak", name := none }
        0 "u1" "a1" "salt" "rt1" "rid1").2.accounts.length = 1 :=
  ⟨rfl, rfl, rfl, rfl⟩

/-! ## C9: the `AuthenticatedApp` extractor (`src/auth/middleware.rs`)

The extractor, embedded from the point where the Basic header is base64- and
UTF-8-decoded (those steps live in external crates and only produce
`InvalidCredentials` on failure): `splitn(2, ':')` on the decoded string,
application lookup by `client_id`, the `is_active` check, then secret
verification. -/

/-- Split at the first colon, as Rust `splitn(2, ':')`: the part before the
first colon and everything after it; `none` when no colon occurs. -/
def splitn2Colon : List Char → Option (List Char × List Char)
  | [] => none
  | ':' :: rest => some ([], rest)
  | c :: rest =>
    match splitn2Colon rest with
    | none => none
    | some (i, s) => some (c :: i, s)

/-- The `splitn(2, ':')` credential split of the decoded Basic payload: no
colon means no secret, hence `InvalidCredentials`. -/
def split_basic_credentials (decoded : String) : Except AppError (String × String) :=
  match splitn2Colon decoded.data with
  | none => .error .InvalidCredentials
  | some (i, s) => .ok (String.mk i, String.mk s)

/-- Embeds the `AuthenticatedApp` extractor body after header decoding. -/
def authenticate_app (apps : List Application) (decoded : String) :
    Except AppError AuthenticatedApp :=
  match split_basic_credentials decoded with
  | .error e => .error e
  | .ok (client_id, client_secret) =>
    match apps.find? (fun a => a.client_id == client_id) with
    | none => .error .ApplicationNotFound
    | some app =>
      if ¬ app.is_active then .error .ApplicationNotActive
      else
        match verify_client_secret client_secret app.client_secret_hash with
        | .error e => .error e
        | .ok true => .ok { app_id := app.id, client_id := app.client_id }
        | .ok false => .error .InvalidCredentials

/-- C9: with a well-formed Basic payload, an unknown `client_id` fails with
`ApplicationNotFound` (not `InvalidCredentials`), and an inactive application
fails with `ApplicationNotActive` before the secret is ever verified, so the
outcome is independent of the presented secret. -/
theorem authenticate_app_not_found_and_inactive_precedence
    (apps : List Application) (decoded : String) :
    (∀ cid secret, split_basic_credentials decoded = .ok (cid, secret) →
      apps.find? (fun a => a.client_id == cid) = none →
      authenticate_app apps decoded = .error .ApplicationNotFound) ∧
    (∀ cid secret app, split_basic_credentials decoded = .ok (cid, secret) →
      apps.find? (fun a => a.client_id == cid) = some app →
      app.is_active = false →
      authenticate_app apps decoded = .error .ApplicationNotActive) := by
  constructor
  · intro cid secret hsplit hfind
    simp [authenticate_app, hsplit, hfind]
  · intro cid secret app hsplit hfind hia
    simp [authenticate_app, hsplit, hfind, hia]

/-! ## C10: `unlink_account` (`src/handlers/user.rs`) -/

/-- Embeds `unlink_account`: count the authenticated user's accounts, guard
the last one, then locate the account for the provider and delete it by id. -/
def unlink_account (accounts : List Account) (user_id provider_id : String) :
    Except AppError (List Account) :=
  let accs := accounts.filter (fun a => a.user_id == user_id)
  if accs.length ≤ 1 then .error .CannotUnlinkLastAccount
  else
    match accs.find? (fun a => a.provider_id == provider_id) with
    | none => .error (.BadRequest ("Account not linked"))
    | some account => .ok (accounts.filter (fun a => ¬ a.id == account.id))

/-- C10: with at most one linked account every `unlink_account` call fails
with `CannotUnlinkLastAccount`, whatever the provider argument; and the
"Account not linked" outcome implies the user held at least two accounts. -/
theorem unlink_account_last_guard_precedes_membership
    (accounts : List Account) (user_id provider_id : String) :
    ((accounts.filter (fun a => a.user_id == user_id)).length ≤ 1 →
      unlink_account accounts user_id provider_id
        = .error .CannotUnlinkLastAccount) ∧
    (unlink_account accounts user_id provider_id
        = .error (.BadRequest ("Account not linked")) →
      2 ≤ (accounts.filter (fun a => a.user_id == user_id)).length) := by
  constructor
  · intro hle
    simp [unlink_account, hle]
  · intro h
    by_contra hlt
    have hle : (accounts.filter (fun a => a.user_id == user_id)).length ≤ 1 := by
      omega
    simp [unlink_account, hle] at h

/-! ## C6: PKCE verification -/

/-- C6: `verify_pkce` with method `"S256"` accepts exactly the challenge equal
to the base64url-no-padding encoding of SHA-256 of the verifier bytes; with
method `"plain"` exactly byte-equality of verifier and challenge; any other
method always fails; and the S256 round trip verifies. -/
theorem verify_pkce_characterisation (v c : String) :
    (verify_pkce v c ("S256") = true
      ↔ c = base64url (sha256Bytes (strBytes v))) ∧
    (verify_pkce v c ("plain") = true ↔ v = c) ∧
    (∀ m, m ≠ "S256" → m ≠ "plain" → verify_pkce v c m = false) ∧
    verify_pkce v (base64url (sha256Bytes (strBytes v))) ("S256") = true := by
  refine ⟨?_, ?_, ?_, ?_⟩
  · constructor
    · intro h
      have h' : (base64url (sha256Bytes (strBytes v)) == c) = true := h
      exact (eq_of_beq h').symm
    · intro h
      show (base64url (sha256Bytes (strBytes v)) == c) = true
      rw [h]
      exact beq_self_eq_true _
  · constructor
    · intro h
      have h' : (v == c) = true := h
      exact eq_of_beq h'
    · intro h
      show (v == c) = true
      rw [h]
      exact beq_self_eq_true _
  · intro m hm1 hm2
    unfold verify_pkce
    split
    · exact absurd rfl hm1
    · exact absurd rfl hm2
    · rfl
  · show (base64url (sha256Bytes (strBytes v))
        == base64url (sha256Bytes (strBytes v))) = true
    exact beq_self_eq_true _

/-! ## C8: the sliding-window rate limiter (`src/rate_limit.rs`)

`Instant`s are `Int` seconds; `Duration` comparisons `now.duration_since(t)
< window` become `now - t < window`.  The `HashMap<String, Vec<Instant>>` is
an association list; `entry(key).or_default()` plus in-place mutation is a
get-with-default followed by a set. -/

/-- Construction parameters of `RateLimiter::new`. -/
structure RateLimiter where
  max_requests : Nat
  window : Int
deriving DecidableEq, Repr

/-- The shared mutable state `RateLimiterInner`. -/
structure RateLimiterInner where
  buckets : List (String × List Int)
  last_cleanup : Int
deriving DecidableEq, Repr

/-- Lookup of a key's timestamp bucket (`HashMap::get`). -/
def bucketsGet (bs : List (String × List Int)) (k : String) :
    Option (List Int) :=
  (bs.find? (fun kv => kv.1 == k)).map (fun kv => kv.2)

/-- Store a key's bucket (`entry().or_default()` plus in-place mutation):
replace the existing entry or insert a fresh one. -/
def bucketsSet (bs : List (String × List Int)) (k : String) (v : List Int) :
    List (String × List Int) :=
  if (bs.find? (fun kv => kv.1 == k)).isSome then
    bs.map (fun kv => if kv.1 == k then (kv.1, v) else kv)
  else bs ++ [(k, v)]

/-- The periodic cleanup inside `check`: on trigger, drop every bucket whose
last timestamp has left the window. -/
def cleanup_step (rl : RateLimiter) (inner : RateLimiterInner) (now : Int) :
    RateLimiterInner :=
  if now - inner.last_cleanup > 60 then
    { buckets := inner.buckets.filter (fun kv =>
        match kv.2.getLast? with
        | some t => decide (now - t < rl.window)
        | none => false),
      last_cleanup := now }
  else inner

/-- Embeds `RateLimiter::check`: cleanup, drop the key's expired timestamps,
then reject a full bucket or append the current instant. -/
def RateLimiter.check (rl : RateLimiter) (inner : RateLimiterInner)
    (key : String) (now : Int) : Bool × RateLimiterInner :=
  let inner1 := cleanup_step rl inner now
  let ts := (bucketsGet inner1.buckets key).getD []
  let ts1 := ts.filter (fun t => decide (now - t < rl.window))
  if rl.max_requests ≤ ts1.length then
    (false, { inner1 with buckets := bucketsSet inner1.buckets key ts1 })
  else
    (true, { inner1 with buckets := bucketsSet inner1.buckets key (ts1 ++ [now]) })

/-- The key's surviving timestamps at a given instant. -/
def nonExpired (rl : RateLimiter) (inner : RateLimiterInner) (key : String)
    (now : Int) : List Int :=
  ((bucketsGet inner.buckets key).getD []).filter
    (fun t => decide (now - t < rl.window))

/-- Sequential checks of one key at the given instants; conjoins the
individual outcomes. -/
def check_run (rl : RateLimiter) (inner : RateLimiterInner) (key : String) :
    List Int → Bool × RateLimiterInner
  | [] => (true, inner)
  | t :: ts =>
    let r := rl.check inner key t
    let rest := check_run rl r.2 key ts
    (r.1 && rest.1, rest.2)

/-- Setting a key makes its bucket hold exactly the stored value. -/
theorem bucketsGet_set_self (bs : List (String × List Int)) (k : String)
    (v : List Int) : bucketsGet (bucketsSet bs k v) k = some v := by
  unfold bucketsSet
  split
  · rename_i hsome
    unfold bucketsGet
    rw [find?_map_of_pred]
    · cases hf : bs.find? (fun kv => kv.1 == k) with
      | none => rw [hf] at hsome; simp at hsome
      | some kv0 =>
        have hb := List.find?_some hf
        have hb' : (kv0.1 == k) = true := hb
        simp [hb']
        rw [if_pos (eq_of_beq hb')]
    · intro a
      by_cases ha : (a.1 == k) = true <;> simp [ha]
  · rename_i hnone
    have hf : bs.find? (fun kv => kv.1 == k) = none := by
      cases hx : bs.find? (fun kv => kv.1 == k) with
      | none => rfl
      | some kv0 => rw [hx] at hnone; simp at hnone
    unfold bucketsGet
    rw [find?_append_left_none _ hf]
    simp [List.find?]

/-- Setting one key leaves every other key's bucket untouched. -/
theorem bucketsGet_set_ne (bs : List (String × List Int)) (k k' : String)
    (v : List Int) (hne : k' ≠ k) :
    bucketsGet (bucketsSet bs k v) k' = bucketsGet bs k' := by
  unfold bucketsSet
  split
  · unfold bucketsGet
    rw [find?_map_of_pred]
    · cases hf : bs.find? (fun kv => kv.1 == k') with
      | none => rfl
      | some kv0 =>
        have hb0 := List.find?_some hf
        have hb : (kv0.1 == k') = true := hb0
        have hk : kv0.1 = k' := eq_of_beq hb
        have hkk : ¬ (kv0.1 == k) = true := by
          rw [hk]
          simpa using hne
        simp [hkk]
        rw [if_neg (by rw [hk]; exact hne)]
    · intro a
      by_cases ha : (a.1 == k) = true <;> simp [ha]
  · unfold bucketsGet
    cases hf : bs.find? (fun kv => kv.1 == k') with
    | none =>
      have hpair : (k == k') = false := beq_eq_false_iff_ne.mpr (Ne.symm hne)
      rw [find?_append_left_none _ hf]
      simp [List.find?, hpair]
    | some kv0 =>
      rw [find?_append_some _ hf]

/-- A miss survives filtering. -/
theorem find?_filter_none {α : Type} (l : List α) (p q : α → Bool)
    (h : l.find? p = none) : (l.filter q).find? p = none := by
  rw [List.find?_eq_none] at h ⊢
  intro a ha
  exact h a (List.mem_of_mem_filter ha)

/-- A map that fixes every member is the identity. -/
theorem map_id_of_mem {α : Type} {l : List α} {f : α → α}
    (h : ∀ a ∈ l, f a = a) : l.map f = l := by
  induction l with
  | nil => rfl
  | cons a t ih =>
    rw [List.map_cons, h a (by simp), ih (fun b hb => h b (by simp [hb]))]

/-- In a nondecreasing list every member is at most the last element. -/
theorem mem_le_getLast {l : List Int} (hs : l.Chain' (· ≤ ·)) {last : Int}
    (hl : l.getLast? = some last) : ∀ t ∈ l, t ≤ last := by
  induction l with
  | nil => simp
  | cons a tl ih =>
    cases tl with
    | nil =>
      simp at hl
      intro t ht
      simp at ht
      omega
    | cons b tl' =>
      rw [List.getLast?_cons_cons] at hl
      rw [List.chain'_cons] at hs
      obtain ⟨hab, hs'⟩ := hs
      intro t ht
      rcases List.mem_cons.mp ht with rfl | ht'
      · have hb : b ≤ last := ih hs' hl b (by simp)
        omega
      · exact ih hs' hl t ht'

/-- With at most one match in the list (pairwise exclusive predicate), a
`find?` after a filter finds the match exactly when it passes the filter. -/
theorem find?_filter_uniq {α : Type} (l : List α) (p q : α → Bool)
    (huniq : l.Pairwise (fun a b => p a = true → p b = false)) :
    (l.filter q).find? p =
      match l.find? p with
      | none => none
      | some a => if q a then some a else none := by
  induction l with
  | nil => rfl
  | cons a t ih =>
    rw [List.pairwise_cons] at huniq
    obtain ⟨hau, ht⟩ := huniq
    by_cases hpa : p a = true
    · rw [List.find?_cons_of_pos _ hpa]
      have htnone : t.find? p = none := by
        rw [List.find?_eq_none]
        intro b hb hpb
        rw [hau b hb hpa] at hpb
        exact absurd hpb (by simp)
      by_cases hqa : q a = true
      · rw [List.filter_cons_of_pos hqa, List.find?_cons_of_pos _ hpa]
        simp [hqa]
      · have hqa' : q a = false := by revert hqa; cases q a <;> simp
        rw [List.filter_cons_of_neg (by simp [hqa'])]
        rw [find?_filter_none t p q htnone]
        simp [hqa']
    · rw [List.find?_cons_of_neg _ hpa]
      by_cases hqa : q a = true
      · rw [List.filter_cons_of_pos hqa, List.find?_cons_of_neg _ hpa]
        exact ih ht
      · rw [List.filter_cons_of_neg (by revert hqa; cases q a <;> simp)]
        exact ih ht

/-- Bucket lookup commutes with a bucket-level filter when keys are unique:
the key's bucket survives exactly when it passes the filter. -/
theorem bucketsGet_filter (bs : List (String × List Int))
    (q : String × List Int → Bool) (k : String)
    (huniq : bs.Pairwise (fun a b => a.1 ≠ b.1)) :
    bucketsGet (bs.filter q) k =
      match bs.find? (fun kv => kv.1 == k) with
      | none => none
      | some kv => if q kv then some kv.2 else none := by
  unfold bucketsGet
  rw [find?_filter_uniq bs (fun kv => kv.1 == k) q]
  · cases hf : bs.find? (fun kv => kv.1 == k) with
    | none => rfl
    | some kv =>
      by_cases hq : q kv = true
      · simp [hq]
      · have hq' : q kv = false := by revert hq; cases q kv <;> simp
        simp [hq']
  · refine huniq.imp ?_
    intro x y hne hpx
    have hx : x.1 = k := eq_of_beq hpx
    refine beq_eq_false_iff_ne.mpr ?_
    intro hy
    exact hne (hx.trans hy.symm)

/-- The periodic cleanup only drops already-expired timestamps: the surviving
view of any key at any later instant is unchanged (keys unique, buckets
sorted — invariants of every state the limiter actually reaches). -/
theorem cleanup_nonexpired_eq (rl : RateLimiter) (inner : RateLimiterInner)
    (now now' : Int) (k : String) (hmono : now ≤ now')
    (huniq : inner.buckets.Pairwise (fun a b => a.1 ≠ b.1))
    (hsorted : ∀ kv ∈ inner.buckets, kv.2.Chain' (· ≤ ·)) :
    nonExpired rl (cleanup_step rl inner now) k now'
      = nonExpired rl inner k now' := by
  unfold cleanup_step
  split
  · unfold nonExpired bucketsGet
    dsimp only
    rw [find?_filter_uniq _ _ _ (huniq.imp ?_)]
    · cases hf : inner.buckets.find? (fun kv => kv.1 == k) with
      | none => rfl
      | some kv =>
        have hmem : kv ∈ inner.buckets := List.mem_of_find?_eq_some hf
        dsimp only
        by_cases hq : (match kv.2.getLast? with
            | some t => decide (now - t < rl.window)
            | none => false) = true
        · rw [if_pos hq]
        · have hq' : (match kv.2.getLast? with
              | some t => decide (now - t < rl.window)
              | none => false) = false := by
            revert hq
            cases (match kv.2.getLast? with
              | some t => decide (now - t < rl.window)
              | none => false) <;> simp
          rw [if_neg hq]
          simp only [Option.map_none', Option.map_some', Option.getD_none,
            Option.getD_some, List.filter_nil]
          symm
          rw [List.filter_eq_nil_iff]
          intro t ht
          cases hl : kv.2.getLast? with
          | none =>
            rw [List.getLast?_eq_none_iff] at hl
            rw [hl] at ht
            simp at ht
          | some last =>
            rw [hl] at hq'
            have hexp : rl.window ≤ now - last := by
              have hd := of_decide_eq_false hq'
              omega
            have hle : t ≤ last := mem_le_getLast (hsorted kv hmem) hl t ht
            simp only [decide_eq_true_eq]
            omega
    · intro x y hne hpx
      have hx : x.1 = k := eq_of_beq hpx
      refine beq_eq_false_iff_ne.mpr ?_
      intro hy
      exact hne (hx.trans hy.symm)
  · rfl

/-- Appending an element that passes the filter commutes with filtering. -/
theorem filter_append_singleton_pos {α : Type} (l : List α) (q : α → Bool)
    (e : α) (h : q e = true) : (l ++ [e]).filter q = l.filter q ++ [e] := by
  rw [List.filter_append]
  congr 1
  rw [List.filter_cons_of_pos h, List.filter_nil]

/-- Invariant-carrying induction for sequential checks of one key: given the
key's bucket holds exactly the instants consumed so far (all still inside the
window of every upcoming instant) and the total stays within `max_requests`,
every check accepts. -/
theorem check_run_accepts (rl : RateLimiter) (key : String) :
    ∀ (times : List Int) (inner : RateLimiterInner) (consumed : List Int),
    ((consumed = [] ∧
        inner.buckets.find? (fun kv => kv.1 == key) = none) ∨
     (consumed ≠ [] ∧ ∃ junk, inner.buckets = junk ++ [(key, consumed)] ∧
        ∀ kv ∈ junk, (kv.1 == key) = false)) →
    consumed.length + times.length ≤ rl.max_requests →
    (∀ tc ∈ consumed, ∀ s ∈ times, s - tc < rl.window) →
    (∀ s ∈ times, ∀ t ∈ times, s - t < rl.window) →
    (check_run rl inner key times).1 = true := by
  intro times
  induction times with
  | nil => intro inner consumed _ _ _ _; rfl
  | cons t ts ih =>
    intro inner consumed hinv hlen hcons hspread
    have hlen' : consumed.length + (ts.length + 1) ≤ rl.max_requests := by
      simpa using hlen
    rcases hinv with ⟨hc, hfnone⟩ | ⟨hcne, junk, hjunk, hjkeys⟩
    · subst hc
      have hf1 : (cleanup_step rl inner t).buckets.find?
          (fun kv => kv.1 == key) = none := by
        unfold cleanup_step
        split
        · exact find?_filter_none _ _ _ hfnone
        · exact hfnone
      have hts : bucketsGet (cleanup_step rl inner t).buckets key = none := by
        unfold bucketsGet
        rw [hf1]
        rfl
      have hchk : rl.check inner key t =
          (true, { cleanup_step rl inner t with
                   buckets := (cleanup_step rl inner t).buckets ++ [(key, [t])] }) := by
        unfold RateLimiter.check
        dsimp only
        rw [hts]
        simp only [Option.getD_none, List.filter_nil, List.length_nil,
          List.nil_append]
        rw [if_neg (by omega)]
        unfold bucketsSet
        rw [hf1]
        simp
      unfold check_run
      dsimp only
      rw [hchk]
      dsimp only
      rw [Bool.true_and]
      refine ih _ [t] (Or.inr ⟨by simp, (cleanup_step rl inner t).buckets, rfl,
        fun kv hkv => ?_⟩)
        (by simp only [List.length_singleton]
            simp only [List.length_nil] at hlen'
            omega) ?_ ?_
      · have := List.find?_eq_none.mp hf1 kv hkv
        revert this
        cases (kv.1 == key) <;> simp
      · intro tc htc s hs
        have htt : tc = t := by simpa using htc
        rw [htt]
        exact hspread s (by simp [hs]) t (by simp)
      · intro s hs t' ht'
        exact hspread s (by simp [hs]) t' (by simp [ht'])
    · obtain ⟨last, hlast⟩ : ∃ last, consumed.getLast? = some last := by
        cases hgl : consumed.getLast? with
        | none =>
          rw [List.getLast?_eq_none_iff] at hgl
          exact absurd hgl hcne
        | some last => exact ⟨last, rfl⟩
      have hlastmem : last ∈ consumed := by
        have hmem0 : last ∈ consumed.getLast? := by
          rw [Option.mem_def]
          exact hlast
        obtain ⟨hne', heq⟩ := List.mem_getLast?_eq_getLast hmem0
        rw [heq]
        exact List.getLast_mem hne'
      have hqe : (fun kv : String × List Int =>
          match kv.2.getLast? with
          | some tt => decide (t - tt < rl.window)
          | none => false) (key, consumed) = true := by
        dsimp only
        rw [hlast]
        exact decide_eq_true (hcons last hlastmem t (by simp))
      have hf1 : ∃ junk2, (cleanup_step rl inner t).buckets
            = junk2 ++ [(key, consumed)] ∧
          ∀ kv ∈ junk2, (kv.1 == key) = false := by
        unfold cleanup_step
        split
        · refine ⟨junk.filter (fun kv =>
              match kv.2.getLast? with
              | some tt => decide (t - tt < rl.window)
              | none => false), ?_, ?_⟩
          · rw [hjunk]
            dsimp only
            rw [filter_append_singleton_pos junk (fun kv =>
              match kv.2.getLast? with
              | some tt => decide (t - tt < rl.window)
              | none => false) ((key, consumed)) hqe]
          · intro kv hkv
            exact hjkeys kv (List.mem_of_mem_filter hkv)
        · exact ⟨junk, hjunk, hjkeys⟩
      obtain ⟨junk2, hj2, hj2keys⟩ := hf1
      have hfj2 : junk2.find? (fun kv => kv.1 == key) = none := by
        rw [List.find?_eq_none]
        intro kv hkv hp
        rw [hj2keys kv hkv] at hp
        exact absurd hp (by simp)
      have hpk : (fun kv : String × List Int => kv.1 == key) (key, consumed)
          = true := beq_self_eq_true key
      have hfind1 : (cleanup_step rl inner t).buckets.find?
          (fun kv => kv.1 == key) = some (key, consumed) := by
        rw [hj2, find?_append_left_none _ hfj2]
        simp [List.find?]
      have hts : bucketsGet (cleanup_step rl inner t).buckets key
          = some consumed := by
        unfold bucketsGet
        rw [hfind1]
        rfl
      have hfilter : consumed.filter (fun tc => decide (t - tc < rl.window))
          = consumed := by
        rw [List.filter_eq_self]
        intro tc htc
        exact decide_eq_true (hcons tc htc t (by simp))
      have hclt : consumed.length < rl.max_requests := by omega
      have hchk : rl.check inner key t =
          (true, { cleanup_step rl inner t with
                   buckets := junk2 ++ [(key, consumed ++ [t])] }) := by
        unfold RateLimiter.check
        dsimp only
        rw [hts]
        simp only [Option.getD_some]
        rw [hfilter, if_neg (not_le.mpr hclt)]
        unfold bucketsSet
        rw [hfind1]
        simp only [Option.isSome_some, if_pos]
        rw [hj2, List.map_append]
        rw [map_id_of_mem (fun kv hkv => by rw [if_neg (by rw [hj2keys kv hkv]; simp)])]
        rw [List.map_cons, List.map_nil, if_pos hpk]
      unfold check_run
      dsimp only
      rw [hchk]
      dsimp only
      rw [Bool.true_and]
      refine ih _ (consumed ++ [t]) (Or.inr ⟨by simp, junk2, rfl, hj2keys⟩)
        (by simp only [List.length_append, List.length_singleton]
            omega) ?_ ?_
      · intro tc htc s hs
        rcases List.mem_append.mp htc with hmem | hmem
        · exact hcons tc hmem s (by simp [hs])
        · have htt : tc = t := by simpa using hmem
          rw [htt]
          exact hspread s (by simp [hs]) t (by simp)
      · intro s hs t' ht'
        exact hspread s (by simp [hs]) t' (by simp [ht'])

/-- C8: for a limiter with `max_requests = N` and window `W`: a check that
finds fewer than `N` surviving timestamps accepts and appends its instant; a
check that finds `N` or more is rejected without appending; checks on
distinct keys never affect each other (the surviving view of every other key
at any later instant is unchanged, given the unique-keys and sorted-buckets
invariants of reachable states); a check on a full `N`-element bucket issued
at least `W` after the bucket's first timestamp accepts again because expired
timestamps are dropped before counting; and from an absent bucket, any run of
at most `N` checks whose instants all lie within one window is accepted
throughout. -/
theorem rate_limiter_check_spec (rl : RateLimiter) (inner : RateLimiterInner)
    (key k' : String) (now now' : Int) (times : List Int) :
    ((nonExpired rl (cleanup_step rl inner now) key now).length
        < rl.max_requests →
      (rl.check inner key now).1 = true ∧
      bucketsGet (rl.check inner key now).2.buckets key
        = some (nonExpired rl (cleanup_step rl inner now) key now ++ [now])) ∧
    (rl.max_requests
        ≤ (nonExpired rl (cleanup_step rl inner now) key now).length →
      (rl.check inner key now).1 = false ∧
      bucketsGet (rl.check inner key now).2.buckets key
        = some (nonExpired rl (cleanup_step rl inner now) key now)) ∧
    (k' ≠ key → now ≤ now' →
      inner.buckets.Pairwise (fun a b => a.1 ≠ b.1) →
      (∀ kv ∈ inner.buckets, kv.2.Chain' (· ≤ ·)) →
      nonExpired rl (rl.check inner key now).2 k' now'
        = nonExpired rl inner k' now') ∧
    (∀ b t0, bucketsGet (cleanup_step rl inner now).buckets key = some b →
      b.length = rl.max_requests → b.head? = some t0 →
      rl.window ≤ now - t0 →
      (rl.check inner key now).1 = true) ∧
    (bucketsGet inner.buckets key = none →
      times.Chain' (· ≤ ·) →
      (∀ s ∈ times, ∀ t ∈ times, s - t < rl.window) →
      times.length ≤ rl.max_requests →
      (check_run rl inner key times).1 = true) := by
  refine ⟨?_, ?_, ?_, ?_, ?_⟩
  · intro h
    unfold nonExpired at h
    unfold RateLimiter.check
    dsimp only
    rw [if_neg (not_le.mpr h)]
    exact ⟨rfl, bucketsGet_set_self _ _ _⟩
  · intro h
    unfold nonExpired at h
    unfold RateLimiter.check
    dsimp only
    rw [if_pos h]
    exact ⟨rfl, bucketsGet_set_self _ _ _⟩
  · intro hne hmono huniq hsorted
    rw [← cleanup_nonexpired_eq rl inner now now' k' hmono huniq hsorted]
    unfold RateLimiter.check
    dsimp only
    split
    · unfold nonExpired
      dsimp only
      rw [bucketsGet_set_ne _ _ _ _ hne]
    · unfold nonExpired
      dsimp only
      rw [bucketsGet_set_ne _ _ _ _ hne]
  · intro b t0 hb hlen hhead hw
    unfold RateLimiter.check
    dsimp only
    rw [hb]
    cases b with
    | nil => simp at hhead
    | cons a rest =>
      have ha : a = t0 := by simpa using hhead
      subst ha
      have hpred : (fun t => decide (now - t < rl.window)) a = false :=
        decide_eq_false (by omega)
      rw [Option.getD_some, List.filter_cons_of_neg (by simp [hpred])]
      have hlf := List.length_filter_le
        (fun t => decide (now - t < rl.window)) rest
      have hlr : rest.length + 1 = rl.max_requests := by simpa using hlen
      rw [if_neg (by omega)]
  · intro hkey hchain hspread hlen
    have hfind : inner.buckets.find? (fun kv => kv.1 == key) = none := by
      unfold bucketsGet at hkey
      cases hx : inner.buckets.find? (fun kv => kv.1 == key) with
      | none => rfl
      | some kv => rw [hx] at hkey; simp at hkey
    exact check_run_accepts rl key times inner []
      (Or.inl ⟨rfl, hfind⟩) (by simpa using hlen)
      (by intro tc htc; simp at htc) hspread

/-! ## C7: client-secret verification -/

/-- A SHA-256 digest is exactly 32 bytes, whatever the message. -/
theorem sha256Bytes_length (m : List Nat) : (sha256Bytes m).length = 32 := by
  simp [sha256Bytes, be32]

/-- Big-endian word bytes are below 256. -/
theorem be32_lt {b x : Nat} (h : b ∈ be32 x) : b < 256 := by
  simp [be32] at h
  rcases h with rfl | rfl | rfl | rfl <;> exact Nat.mod_lt _ (by norm_num)

/-- Every digest byte is below 256. -/
theorem sha256Bytes_lt {m : List Nat} {b : Nat} (h : b ∈ sha256Bytes m) :
    b < 256 := by
  simp only [sha256Bytes, List.mem_append] at h
  rcases h with ((((((h | h) | h) | h) | h) | h) | h) | h <;> exact be32_lt h

/-- Hex digits are ASCII. -/
theorem hexDigitChar_ascii (n : Nat) : (hexDigitChar n).toNat < 128 := by
  unfold hexDigitChar
  by_cases h : n < 16
  · interval_cases n <;> decide
  · rw [if_neg (by omega), List.getD_eq_default]
    · decide
    · simp
      omega

/-- Every character of a hex encoding is ASCII. -/
theorem hexEncode_ascii {bs : List Nat} {c : Char}
    (h : c ∈ (hexEncode bs).data) : c.toNat < 128 := by
  simp only [hexEncode, List.mem_flatten, List.mem_map] at h
  obtain ⟨l, ⟨b, _, rfl⟩, hc⟩ := h
  simp at hc
  rcases hc with rfl | rfl <;> exact hexDigitChar_ascii _

/-- A hex encoding has two characters per byte. -/
theorem hexEncode_data_length (bs : List Nat) :
    (hexEncode bs).data.length = 2 * bs.length := by
  induction bs with
  | nil => rfl
  | cons b t ih =>
    simp only [hexEncode, List.map_cons, List.flatten_cons] at ih ⊢
    simp only [List.length_append, List.length_cons, List.length_nil] at ih ⊢
    omega

/-- UTF-8 of an ASCII scalar is the single byte. -/
theorem utf8Bytes_ascii {c : Char} (h : c.toNat < 128) :
    utf8Bytes c = [c.toNat] := by
  unfold utf8Bytes
  rw [if_pos h]

/-- The byte view of an ASCII string is the code-point list. -/
theorem strBytes_ascii_aux (l : List Char) (h : ∀ c ∈ l, c.toNat < 128) :
    ((l.map utf8Bytes).flatten) = l.map Char.toNat := by
  induction l with
  | nil => rfl
  | cons c t ih =>
    rw [List.map_cons, List.flatten_cons, utf8Bytes_ascii (h c (by simp)),
      List.map_cons, ih (fun d hd => h d (by simp [hd]))]
    rfl

/-- Scalar values determine characters. -/
theorem char_toNat_inj {c d : Char} (h : c.toNat = d.toNat) : c = d := by
  have hv : c.val = d.val := UInt32.toNat.inj h
  exact Char.eq_of_val_eq hv

/-- Code-point lists determine character lists. -/
theorem map_toNat_inj {l l' : List Char}
    (h : l.map Char.toNat = l'.map Char.toNat) : l = l' := by
  induction l generalizing l' with
  | nil => cases l' with
    | nil => rfl
    | cons c t => simp at h
  | cons c t ih =>
    cases l' with
    | nil => simp at h
    | cons d t' =>
      simp only [List.map_cons, List.cons.injEq] at h
      rw [char_toNat_inj h.1, ih h.2]

/-- Or-accumulator form of `ctFold`. -/
theorem ctFold_foldl_acc (zs : List (Nat × Nat)) :
    ∀ acc, zs.foldl (fun acc p => acc ||| (p.1 ^^^ p.2)) acc
      = acc ||| zs.foldl (fun acc p => acc ||| (p.1 ^^^ p.2)) 0 := by
  induction zs with
  | nil => intro acc; simp
  | cons z t ih =>
    intro acc
    rw [List.foldl_cons, List.foldl_cons, ih (acc ||| (z.1 ^^^ z.2)),
      ih (0 ||| (z.1 ^^^ z.2))]
    simp [Nat.lor_assoc]

/-- Or of naturals is zero exactly when both are. -/
theorem lor_eq_zero_iff (x y : Nat) : x ||| y = 0 ↔ x = 0 ∧ y = 0 := by
  constructor
  · intro h
    constructor
    · refine Nat.eq_of_testBit_eq (fun i => ?_)
      have ht := congrArg (fun z => Nat.testBit z i) h
      simp only [Nat.testBit_lor, Nat.zero_testBit, Bool.or_eq_false_iff] at ht
      simp [ht.1, Nat.zero_testBit]
    · refine Nat.eq_of_testBit_eq (fun i => ?_)
      have ht := congrArg (fun z => Nat.testBit z i) h
      simp only [Nat.testBit_lor, Nat.zero_testBit, Bool.or_eq_false_iff] at ht
      simp [ht.2, Nat.zero_testBit]
  · rintro ⟨rfl, rfl⟩
    rfl

/-- The constant-time fold vanishes exactly on equal byte strings of equal
length. -/
theorem ctFold_eq_zero_iff : ∀ (xs ys : List Nat), xs.length = ys.length →
    (ctFold xs ys = 0 ↔ xs = ys) := by
  intro xs
  induction xs with
  | nil =>
    intro ys hlen
    cases ys with
    | nil => simp [ctFold]
    | cons b t => simp at hlen
  | cons a t ih =>
    intro ys hlen
    cases ys with
    | nil => simp at hlen
    | cons b t' =>
      have hlen' : t.length = t'.length := by simpa using hlen
      have hcons : ctFold (a :: t) (b :: t') = (a ^^^ b) ||| ctFold t t' := by
        unfold ctFold
        rw [List.zip_cons_cons, List.foldl_cons, ctFold_foldl_acc]
        simp
      rw [hcons, lor_eq_zero_iff, Nat.xor_eq_zero, ih t' hlen']
      simp

/-- Byte length of the hex digest string, independent of the message. -/
theorem strBytes_hexEncode_sha256_length (m : List Nat) :
    (strBytes (hexEncode (sha256Bytes m))).length = 64 := by
  unfold strBytes
  rw [strBytes_ascii_aux _ (fun c hc => hexEncode_ascii hc)]
  rw [List.length_map, hexEncode_data_length, sha256Bytes_length]

/-- On ASCII strings, the constant-time comparison agrees with string
equality. -/
theorem ascii_ctFold_beq (u v : String)
    (hu : ∀ c ∈ u.data, c.toNat < 128) (hv : ∀ c ∈ v.data, c.toNat < 128)
    (hlen : (strBytes u).length = (strBytes v).length) :
    (ctFold (strBytes u) (strBytes v) == 0) = (u == v) := by
  rw [Bool.eq_iff_iff, beq_iff_eq, beq_iff_eq]
  constructor
  · intro h0
    have hbytes : strBytes u = strBytes v :=
      (ctFold_eq_zero_iff _ _ hlen).mp h0
    have hsu : strBytes u = u.data.map Char.toNat := strBytes_ascii_aux u.data hu
    have hsv : strBytes v = v.data.map Char.toNat := strBytes_ascii_aux v.data hv
    rw [hsu, hsv] at hbytes
    have hdata : u.data = v.data := map_toNat_inj hbytes
    have : String.mk u.data = String.mk v.data := congrArg String.mk hdata
    exact this
  · intro h
    rw [h]
    exact (ctFold_eq_zero_iff _ _ rfl).mpr rfl

set_option maxHeartbeats 1000000 in
/-- Evaluation of `verify_client_secret` on a SHA-256-tagged hash: the
outcome is exactly equality of the two hex digests. -/
theorem verify_client_secret_sha256 (s s' : String) :
    verify_client_secret s' (hash_client_secret s)
      = .ok (hexEncode (sha256Bytes (strBytes s'))
          == hexEncode (sha256Bytes (strBytes s))) := by
  have hpre : (("sha256:").data).isPrefixOf
      (("sha256:" ++ hexEncode (sha256Bytes (strBytes s))).data) = true := by
    rw [String.data_append, List.isPrefixOf_iff_prefix]
    exact List.prefix_append _ _
  have hdrop : String.mk
      ((("sha256:" ++ hexEncode (sha256Bytes (strBytes s))).data).drop 7)
      = hexEncode (sha256Bytes (strBytes s)) := by
    rw [String.data_append]
    rw [show (7 : Nat) = ("sha256:").data.length from rfl]
    rw [List.drop_left]
  unfold verify_client_secret hash_client_secret
  dsimp only
  rw [if_pos hpre, hdrop]
  rw [if_neg (by
    rw [strBytes_hexEncode_sha256_length, strBytes_hexEncode_sha256_length]
    simp)]
  congr 1
  exact ascii_ctFold_beq _ _ (fun c hc => hexEncode_ascii hc)
    (fun c hc => hexEncode_ascii hc)
    (by rw [strBytes_hexEncode_sha256_length, strBytes_hexEncode_sha256_length])

/-- A `takeWhile` that accepts all of the left part and stops at `x`. -/
theorem takeWhile_all_stop {p : Char → Bool} (l m : List Char) (x : Char)
    (hall : ∀ c ∈ l, p c = true) (hx : p x = false) :
    ((l ++ x :: m).takeWhile p) = l := by
  induction l with
  | nil => simp [List.takeWhile_cons, hx]
  | cons c t ih =>
    rw [List.cons_append, List.takeWhile_cons, hall c (by simp),
      ih (fun d hd => hall d (by simp [hd]))]
    rfl

/-- Evaluation of the modelled Argon2 check on a well-formed encoding. -/
theorem argon2Check_encode (salt pwd cand : List Char)
    (hsalt : ∀ c ∈ salt, c ≠ '$') :
    argon2Check cand (argon2Encode salt pwd) = some (decide (pwd = cand)) := by
  unfold argon2Check argon2Encode
  rw [List.append_assoc]
  have htake : ((argon2Tag ++ (salt ++ '$' :: pwd)).take 10) = argon2Tag := by
    rw [show (10 : Nat) = argon2Tag.length from rfl]
    exact List.take_left _ _
  have hdrop : ((argon2Tag ++ (salt ++ '$' :: pwd)).drop 10)
      = salt ++ '$' :: pwd := by
    rw [show (10 : Nat) = argon2Tag.length from rfl]
    exact List.drop_left _ _
  rw [if_pos htake, hdrop]
  dsimp only
  have htw : ((salt ++ '$' :: pwd).takeWhile (fun c => decide (c ≠ '$')))
      = salt :=
    takeWhile_all_stop _ _ _ (fun c hc => decide_eq_true (hsalt c hc))
      (by decide)
  rw [htw]
  have hdrop2 : ((salt ++ '$' :: pwd).drop (salt.length + 1)) = pwd := by
    have h1 : ((salt ++ '$' :: pwd).drop salt.length) = '$' :: pwd :=
      List.drop_left _ _
    have h2 := List.drop_drop 1 salt.length (salt ++ '$' :: pwd)
    rw [h1] at h2
    rw [← h2]
    rfl
  rw [hdrop2]

/-- Evaluation of `verify_password` on a freshly hashed password. -/
theorem verify_password_encode (salt pwd cand : String)
    (hsalt : ∀ c ∈ salt.data, c ≠ '$') :
    verify_password cand (hash_password salt pwd)
      = .ok (decide (pwd = cand)) := by
  unfold verify_password hash_password
  rw [show (String.mk (argon2Encode salt.data pwd.data)).data
      = argon2Encode salt.data pwd.data from rfl]
  rw [argon2Check_encode salt.data pwd.data cand.data hsalt]
  have hiff : (pwd.data = cand.data) ↔ (pwd = cand) := by
    constructor
    · intro h
      have : String.mk pwd.data = String.mk cand.data := congrArg String.mk h
      exact this
    · intro h
      rw [h]
  rw [decide_eq_decide.mpr hiff]

/-- The modelled Argon2 hash never carries the `"sha256:"` tag, so
`verify_client_secret` takes the legacy path on it. -/
theorem hash_password_no_sha256_tag (salt pwd : String) :
    (("sha256:").data).isPrefixOf (hash_password salt pwd).data = false := rfl

/-- Evaluation of `verify_client_secret` on a legacy Argon2 hash. -/
theorem verify_client_secret_argon (salt s cand : String)
    (hsalt : ∀ c ∈ salt.data, c ≠ '$') :
    verify_client_secret cand (hash_password salt s)
      = .ok (decide (s = cand)) := by
  unfold verify_client_secret
  rw [if_neg (by simp [hash_password_no_sha256_tag salt s])]
  exact verify_password_encode salt s cand hsalt

/-- An injection of 257 bits into strings (two-letter alphabet), used to
exhibit more inputs than SHA-256 has digests. -/
def encodeBits (v : Fin 257 → Bool) : String :=
  String.mk (List.ofFn (fun i => if v i then 'b' else 'a'))

set_option maxRecDepth 4000 in
/-- Distinct bit vectors encode to distinct strings. -/
theorem encodeBits_inj : Function.Injective encodeBits := by
  intro v v' h
  have hdata : (encodeBits v).data = (encodeBits v').data :=
    congrArg String.data h
  unfold encodeBits at hdata
  dsimp only at hdata
  have hfn := List.ofFn_injective hdata
  funext i
  have hi := congrFun hfn i
  by_cases hv : v i <;> by_cases hv' : v' i <;>
    simp [hv, hv'] at hi ⊢

/-- The `i`-th digest byte of a string's SHA-256, as an element of
`Fin 256`. -/
def digestByte (s : String) (i : Fin 32) : Fin 256 :=
  ⟨(sha256Bytes (strBytes s)).getD i.val 0, by
    have hlen : i.val < (sha256Bytes (strBytes s)).length := by
      rw [sha256Bytes_length]
      exact i.isLt
    rw [List.getD_eq_getElem _ _ hlen]
    exact sha256Bytes_lt (List.getElem_mem hlen)⟩

/-- Equal digest-byte functions force equal digests. -/
theorem digest_eq_of_digestByte_eq {s s' : String}
    (h : ∀ i : Fin 32, digestByte s i = digestByte s' i) :
    sha256Bytes (strBytes s) = sha256Bytes (strBytes s') := by
  apply List.ext_get
  · rw [sha256Bytes_length, sha256Bytes_length]
  · intro i h1 h2
    have hi32 : i < 32 := by
      rw [sha256Bytes_length] at h1
      exact h1
    have hv := congrArg Fin.val (h ⟨i, hi32⟩)
    simp only [digestByte] at hv
    rw [List.getD_eq_getElem _ _ h1, List.getD_eq_getElem _ _ h2] at hv
    simpa [List.get_eq_getElem] using hv

/-- C7 counterexample: it is not the case that every pair of distinct secrets
is rejected across each other's stored hash — `verify_client_secret` compares
SHA-256 digests, and a function from all strings into 32-byte digests cannot
be injective (pigeonhole over 2^257 inputs and at most 2^256 digests), so
some distinct pair verifies. -/
theorem verify_client_secret_not_injective :
    ¬ (∀ s s' : String, s' ≠ s →
        verify_client_secret s' (hash_client_secret s) = .ok false) := by
  intro hall
  have hcard : Fintype.card (Fin 32 → Fin 256)
      < Fintype.card (Fin 257 → Bool) := by
    rw [Fintype.card_fun, Fintype.card_fin, Fintype.card_fin,
      Fintype.card_fun, Fintype.card_bool, Fintype.card_fin]
    have h1 : (256 : Nat) ^ 32 = 2 ^ 256 := by
      nth_rewrite 1 [show (256 : Nat) = 2 ^ 8 by norm_num]
      rw [← pow_mul]
    rw [h1]
    exact Nat.pow_lt_pow_right one_lt_two (by norm_num)
  obtain ⟨v, v', hvne, hfeq⟩ := Fintype.exists_ne_map_eq_of_card_lt
    (fun v (i : Fin 32) => digestByte (encodeBits v) i) hcard
  have hsne : encodeBits v' ≠ encodeBits v :=
    fun h => hvne (encodeBits_inj h.symm)
  have hdig : sha256Bytes (strBytes (encodeBits v'))
      = sha256Bytes (strBytes (encodeBits v)) := by
    apply digest_eq_of_digestByte_eq
    intro i
    exact (congrFun hfeq i).symm
  have hres := hall (encodeBits v) (encodeBits v') hsne
  rw [verify_client_secret_sha256, hdig, beq_self_eq_true] at hres
  simp at hres

/-- C7 (amended): a secret verifies against both its SHA-256 hash and its
modelled legacy Argon2 hash, and a different secret is rejected by the
SHA-256 path whenever its digest differs (which cannot hold for all pairs)
and by the legacy path always. -/
theorem verify_client_secret_characterisation :
    (∀ s, verify_client_secret s (hash_client_secret s) = .ok true) ∧
    (∀ salt s, (∀ c ∈ salt.data, c ≠ '$') →
      verify_client_secret s (hash_password salt s) = .ok true) ∧
    (∀ s s', hexEncode (sha256Bytes (strBytes s'))
        ≠ hexEncode (sha256Bytes (strBytes s)) →
      verify_client_secret s' (hash_client_secret s) = .ok false) ∧
    (∀ salt s s', (∀ c ∈ salt.data, c ≠ '$') → s' ≠ s →
      verify_client_secret s' (hash_password salt s) = .ok false) := by
  refine ⟨?_, ?_, ?_, ?_⟩
  · intro s
    rw [verify_client_secret_sha256 s s, beq_self_eq_true]
  · intro salt s h
    rw [verify_client_secret_argon salt s s h, decide_eq_true rfl]
  · intro s s' hne
    rw [verify_client_secret_sha256 s s', beq_eq_false_iff_ne.mpr hne]
  · intro salt s s' hsalt hne
    rw [verify_client_secret_argon salt s s' hsalt,
      decide_eq_false (fun h => hne h.symm)]

/-! ## Concrete witnesses -/

/-- A concrete unused authorization code. -/
def acW : AuthorizationCode :=
  { code := "c1", app_id := "app", user_id := "u1", redirect_uri := "uri",
    scopes := ["openid"], code_challenge := none,
    code_challenge_method := none, expires_at := 100, used := false,
    created_at := 0 }

/-- A concrete live refresh token row. -/
def rtW : RefreshToken :=
  { id := "i1", user_id := "u1", app_id := "app",
    token_hash := hash_token "raw1", scopes := ["s"], device_id := none,
    expires_at := 100, revoked := false, created_at := 0 }

/-- A concrete disabled user. -/
def userW : User :=
  { id := "u1", email := some "a@t.com", name := none, avatar_url := none,
    email_verified := false, role := "user", is_active := false,
    created_at := 0, updated_at := 0 }

/-- A world holding only the disabled user. -/
def worldW : World := { emptyWorld with users := [userW] }

/-- A concrete inactive application. -/
def appW : Application :=
  { id := "a1", name := "n", client_id := "cid",
    client_secret_hash := hash_client_secret "sec", redirect_uris := [],
    allowed_scopes := [], is_active := false, created_at := 0,
    updated_at := 0 }

/-- A concrete account row for the user. -/
def accountW (i prov : String) : Account :=
  { id := i, user_id := "u1", provider_id := prov,
    provider_account_id := none, credential := none,
    provider_metadata := "{}", created_at := 0, updated_at := 0 }

set_option maxRecDepth 100000 in
/-- Witness for C1 at a concrete store: the exchange succeeds, marks the row
used, and the second exchange of the same code fails. -/
theorem exchange_auth_code_single_use_witness :
    exchange_auth_code [acW] "c1" "app" "uri" none 50
      = (.ok ("u1", ["openid"]), [{ acW with used := true }]) ∧
    exchange_auth_code [{ acW with used := true }] "c1" "appX" "uriX"
      (some "v") 99
      = (.error .InvalidAuthorizationCode, [{ acW with used := true }]) := by
  have h := exchange_auth_code_check_order_and_single_use [acW] "c1" "app"
    "uri" none 50
  have hs := (h.2.1 acW (by rfl)).2.2.2.2.2.2 rfl rfl rfl (by decide)
    (by trivial)
  exact ⟨hs.1, h.2.2 ("u1", ["openid"]) [{ acW with used := true }] hs.1
    "appX" "uriX" (some "v") 99⟩

set_option maxRecDepth 100000 in
/-- Witness for C2 at a concrete store: rotation succeeds with the specified
new row, and replaying the old raw token yields `TokenRevoked`. -/
theorem rotate_refresh_token_replay_witness :
    rotate_refresh_token [rtW] "raw1" "app" 30 50 "raw2" "i2"
      = (.ok ("u1", "raw2", ["s"]),
         [{ rtW with revoked := true },
          { id := "i2", user_id := "u1", app_id := "app",
            token_hash := hash_token "raw2", scopes := ["s"],
            device_id := none, expires_at := 50 + 30 * 86400,
            revoked := false, created_at := 50 }]) ∧
    rotate_refresh_token
      [{ rtW with revoked := true },
       { id := "i2", user_id := "u1", app_id := "app",
         token_hash := hash_token "raw2", scopes := ["s"],
         device_id := none, expires_at := 50 + 30 * 86400,
         revoked := false, created_at := 50 }] "raw1" "appX" 7 99 "raw3" "i3"
      = (.error .TokenRevoked,
         [{ rtW with revoked := true },
          { id := "i2", user_id := "u1", app_id := "app",
            token_hash := hash_token "raw2", scopes := ["s"],
            device_id := none, expires_at := 50 + 30 * 86400,
            revoked := false, created_at := 50 }]) := by
  have h := rotate_refresh_token_rotation_and_replay [rtW] "raw1" "app"
    30 50 "raw2" "i2"
  have hs := (h.2.1 rtW (by rfl)).2.2.2 rfl rfl (by decide)
  exact ⟨hs, h.2.2 ("u1", "raw2", ["s"]) _ hs "appX" 7 99 "raw3" "i3"⟩

/-- Witness for C3 at a concrete world: login with the disabled user's email
fails with `UserDisabled` and mutates nothing. -/
theorem inactive_user_login_witness :
    login worldW cfg0 capp0 { email := "a@t.com", password := "pw" } 0
      "r1" "i1" = (.error .UserDisabled, worldW) := by
  have h := inactive_user_obtains_no_token worldW cfg0
    { app_id := "a1", client_id := "cid" } capp0
    { grant_type := "password", code := none, redirect_uri := none,
      code_verifier := none, username := none, password := none,
      refresh_token := none, scope := none }
    { email := "a@t.com", password := "pw" } { refresh_token := "t" }
    "prov" (.error .ProviderNotConfigured) 0 "r1" "i1" "nu" "na"
  exact h.2.2.2.2.2.2.2.1 userW (by rfl) rfl

/-- Witness for C5 at a concrete store: an expired code is rejected with
`AuthorizationCodeExpired` and the table is unchanged. -/
theorem exchange_auth_code_expired_witness :
    exchange_auth_code [{ acW with expires_at := 10 }] "c1" "app" "uri"
      none 50
      = (.error .AuthorizationCodeExpired, [{ acW with expires_at := 10 }]) := by
  have h := exchange_auth_code_failure_leaves_table_unchanged
    [{ acW with expires_at := 10 }] "c1" "app" "uri" none 50
  exact h.2 { acW with expires_at := 10 } (by rfl) rfl rfl rfl (by decide)

/-- Witness for C6 at concrete strings: an unknown method always fails, and
the S256 round trip verifies. -/
theorem verify_pkce_witness :
    verify_pkce "v" "c" "foo" = false ∧
    verify_pkce "abc" (base64url (sha256Bytes (strBytes "abc"))) "S256"
      = true := by
  have h := verify_pkce_characterisation "abc" "c"
  have h2 := verify_pkce_characterisation "v" "c"
  exact ⟨h2.2.2.1 "foo" (by decide) (by decide), h.2.2.2⟩

set_option maxRecDepth 100000 in
/-- Witness for the amended C7 at concrete secrets and salts. -/
theorem verify_client_secret_witness :
    verify_client_secret "sec" (hash_client_secret "sec") = .ok true ∧
    verify_client_secret "pw" (hash_password "salt" "pw") = .ok true ∧
    verify_client_secret "b" (hash_client_secret "a") = .ok false ∧
    verify_client_secret "b" (hash_password "salt" "a") = .ok false := by
  have h := verify_client_secret_characterisation
  refine ⟨h.1 "sec", h.2.1 "salt" "pw" (by decide), ?_, ?_⟩
  · exact h.2.2.1 "a" "b" (by decide)
  · exact h.2.2.2 "salt" "a" "b" (by decide) (by decide)

/-- Witness for C8 at a concrete limiter: from an empty bucket, two checks
within the window both pass under the limit of two; and a single check on the
empty bucket accepts and stores its instant. -/
theorem rate_limiter_check_witness :
    ((RateLimiter.mk 2 60).check { buckets := [], last_cleanup := 0 }
      "k" 1).1 = true ∧
    (check_run (RateLimiter.mk 2 60) { buckets := [], last_cleanup := 0 }
      "k" [1, 2]).1 = true := by
  have h := rate_limiter_check_spec (RateLimiter.mk 2 60)
    { buckets := [], last_cleanup := 0 } "k" "j" 1 2 [1, 2]
  refine ⟨(h.1 (by decide)).1, h.2.2.2.2 rfl
    (List.chain'_cons.mpr ⟨by norm_num, List.chain'_singleton 2⟩) ?_
    (by decide)⟩
  intro s hs t ht
  fin_cases hs <;> fin_cases ht <;> decide

/-- Witness for C9 at concrete stores: unknown client id yields
`ApplicationNotFound`; an inactive application yields `ApplicationNotActive`
even with the correct secret. -/
theorem authenticate_app_witness :
    authenticate_app [] "cid:sec" = .error .ApplicationNotFound ∧
    authenticate_app [appW] "cid:sec" = .error .ApplicationNotActive := by
  have h0 := authenticate_app_not_found_and_inactive_precedence [] "cid:sec"
  have h1 := authenticate_app_not_found_and_inactive_precedence [appW]
    "cid:sec"
  exact ⟨h0.1 "cid" "sec" (by rfl) (by rfl),
    h1.2 "cid" "sec" appW (by rfl) (by rfl) rfl⟩

/-- Witness for C10 at concrete stores: one linked account forces
`CannotUnlinkLastAccount` even for an unlinked provider; the not-linked error
on a two-account user certifies at least two accounts. -/
theorem unlink_account_witness :
    unlink_account [accountW "a1" "password"] "u1" "wechat"
      = .error .CannotUnlinkLastAccount ∧
    2 ≤ (([accountW "a1" "password", accountW "a2" "wechat"].filter
      (fun a => a.user_id == "u1")).length) := by
  have h1 := unlink_account_last_guard_precedes_membership
    [accountW "a1" "password"] "u1" "wechat"
  have h2 := unlink_account_last_guard_precedes_membership
    [accountW "a1" "password", accountW "a2" "wechat"] "u1" "github"
  exact ⟨h1.1 (by decide), h2.2 (by rfl)⟩

end AuthSpec
